import Mathlib

/-!
Verification of the report-normalization and aggregation pipeline of the
sushi-utility worker (`src/worker.js`).

The JavaScript source is shallowly embedded: JS objects become structures,
JS number fields that the code passes through `parseInt(x) || 0` become `Int`,
JS object-literal dictionaries become association lists (`List (String × _)`)
with insertion-order semantics, and the `while` loop of `getMonthColumns`
becomes a fuel-based structural recursion (the fuel provably dominates the
number of iterations of the source loop).

Dates: a JS `Date` built from a `YYYY-MM-DD` string (the worker runs in UTC)
is modelled by its calendar components; `month` is 0-based exactly as
`Date.getMonth()`. Comparing two such dates by timestamp is lexicographic
comparison of (year, month, day), which `dateLe` implements.
-/

namespace Sushi

/-- Calendar date as decoded by the worker; `month` is 0-based like JS `Date.getMonth()`. -/
structure SDate where
  year : Nat
  month : Nat
  day : Nat
deriving DecidableEq

/-- Linear month index `year * 12 + month`, the induction measure for the month loop. -/
def monthIdx (d : SDate) : Nat := d.year * 12 + d.month

/-- Timestamp comparison `current <= end` of two UTC-midnight dates:
lexicographic on (year, month, day). -/
def dateLe (a b : SDate) : Bool :=
  if a.year ≠ b.year then decide (a.year < b.year)
  else if a.month ≠ b.month then decide (a.month < b.month)
  else decide (a.day ≤ b.day)

/-- The `months` array of `formatMonthKey` / `convertApiMonthToDisplayMonth`. -/
def monthNames : List String :=
  ["Jan", "Feb", "Mar", "Apr", "May", "Jun", "Jul", "Aug", "Sep", "Oct", "Nov", "Dec"]

/-- JS `year.toString().slice(-2)`: the last two characters (whole string if shorter). -/
def lastTwo (s : String) : String := s.drop (s.length - 2)

/-- JS `String.prototype.toLowerCase` for the ASCII report-type strings the worker
compares; written over the character list so it evaluates inside the kernel. -/
def jsToLower (s : String) : String := ⟨s.data.map Char.toLower⟩

/-- Character-list splitter behind `split('-')`. -/
def splitDashAux : List Char → List Char → List String
  | [], acc => [⟨acc.reverse⟩]
  | c :: cs, acc =>
    if c = '-' then ⟨acc.reverse⟩ :: splitDashAux cs [] else splitDashAux cs (c :: acc)

/-- JS `apiMonth.split('-')`. -/
def splitDash (s : String) : List String := splitDashAux s.data []

/-- JS `parseInt` on the non-negative decimal strings the worker feeds it: the
leading digit prefix as a number, `none` for NaN. -/
def parseIntPrefix (s : String) : Option Nat :=
  let ds := s.data.takeWhile (fun c => c.isDigit)
  if ds = [] then none else some (ds.foldl (fun n c => n * 10 + (c.toNat - 48)) 0)

/-- `formatMonthKey` of worker.js lines 483-489: three-letter month name, hyphen,
last two characters of the decimal year. -/
def formatMonthKey (y m : Nat) : String :=
  monthNames.getD m "" ++ "-" ++ lastTwo (toString y)

/-- Month label of a linear month index. -/
def labelOfIdx (k : Nat) : String := formatMonthKey (k / 12) (k % 12)

/-- The `while (current <= end)` loop of `getMonthColumns` (lines 498-501), with
explicit fuel. `cur` is the linear month index of `current`, whose day is always 1. -/
def monthLoopFuel : Nat → Nat → SDate → List String
  | 0, _, _ => []
  | f + 1, cur, e =>
    if dateLe ⟨cur / 12, cur % 12, 1⟩ e then labelOfIdx cur :: monthLoopFuel f (cur + 1) e
    else []

/-- `getMonthColumns` of worker.js lines 491-504: month labels from the first day of
the begin month while that first-of-month does not exceed the end date. The fuel
`monthIdx e + 2 - monthIdx b` strictly dominates the number of loop iterations, so
the fueled loop computes exactly what the source's unbounded loop computes
(`monthLoopFuel_eq` below makes this precise). -/
def getMonthColumns (b e : SDate) : List String :=
  monthLoopFuel (monthIdx e + 2 - monthIdx b) (monthIdx b) e

theorem dateLe_first_of_month (cur : Nat) (e : SDate) (hm : e.month < 12) (hd : 1 ≤ e.day) :
    dateLe ⟨cur / 12, cur % 12, 1⟩ e = true ↔ cur ≤ monthIdx e := by
  have h1 := Nat.div_add_mod cur 12
  have h2 : cur % 12 < 12 := Nat.mod_lt _ (by omega)
  simp only [dateLe, monthIdx]
  split_ifs with hY hM <;> simp only [decide_eq_true_eq] <;> omega

theorem monthLoopFuel_eq (e : SDate) (hm : e.month < 12) (hd : 1 ≤ e.day) :
    ∀ (f cur : Nat), monthLoopFuel f cur e
      = (List.range' cur (min f (monthIdx e + 1 - cur))).map labelOfIdx := by
  intro f
  induction f with
  | zero => intro cur; simp [monthLoopFuel]
  | succ f ih =>
    intro cur
    rw [monthLoopFuel]
    by_cases h : cur ≤ monthIdx e
    · rw [if_pos ((dateLe_first_of_month cur e hm hd).mpr h)]
      rw [ih (cur + 1)]
      have hrew : min (f + 1) (monthIdx e + 1 - cur) = min f (monthIdx e + 1 - (cur + 1)) + 1 := by
        omega
      rw [hrew, List.range'_succ, List.map_cons]
    · rw [if_neg (by simp [dateLe_first_of_month cur e hm hd, h])]
      have hz : monthIdx e + 1 - cur = 0 := by omega
      simp [hz]

theorem getMonthColumns_eq (b e : SDate) (hm : e.month < 12) (hd : 1 ≤ e.day) :
    getMonthColumns b e
      = (List.range' (monthIdx b) (monthIdx e + 1 - monthIdx b)).map labelOfIdx := by
  rw [getMonthColumns, monthLoopFuel_eq e hm hd]
  congr 2
  omega

/-- C4 (amended): for valid begin/end dates with begin's month not after end's month,
`getMonthColumns` returns exactly the chronological ascending sequence of `Mon-YY`
labels for the linear month indices from begin's month to end's month inclusive, of
length `(Ye*12+Me) - (Yb*12+Mb) + 1`. (The claim's additional "duplicate-free" is
refuted by `getMonthColumns_not_nodup`: two-digit year labels repeat each century.) -/
theorem getMonthColumns_range (b e : SDate) (hm : e.month < 12) (hd : 1 ≤ e.day)
    (hbe : monthIdx b ≤ monthIdx e) :
    getMonthColumns b e
      = (List.range' (monthIdx b) (monthIdx e - monthIdx b + 1)).map labelOfIdx
    ∧ (getMonthColumns b e).length = monthIdx e - monthIdx b + 1 := by
  have h := getMonthColumns_eq b e hm hd
  have hn : monthIdx e + 1 - monthIdx b = monthIdx e - monthIdx b + 1 := by omega
  rw [hn] at h
  exact ⟨h, by rw [h]; simp⟩

/-- Witness for `getMonthColumns_range` at Nov 15 2024 .. Feb 10 2025. -/
theorem getMonthColumns_range_witness :
    (⟨2025, 1, 10⟩ : SDate).month < 12 ∧ 1 ≤ (⟨2025, 1, 10⟩ : SDate).day
    ∧ monthIdx ⟨2024, 10, 15⟩ ≤ monthIdx ⟨2025, 1, 10⟩
    ∧ getMonthColumns ⟨2024, 10, 15⟩ ⟨2025, 1, 10⟩ = ["Nov-24", "Dec-24", "Jan-25", "Feb-25"]
    ∧ (getMonthColumns ⟨2024, 10, 15⟩ ⟨2025, 1, 10⟩).length = 4 := by
  have h := getMonthColumns_range ⟨2024, 10, 15⟩ ⟨2025, 1, 10⟩ (by decide) (by decide) (by decide)
  refine ⟨by decide, by decide, by decide, ?_, ?_⟩
  · rw [h.1]; decide
  · rw [h.2]; decide

set_option maxRecDepth 40000 in
/-- C4 counterexample: over a 100-year range the returned label sequence is NOT
duplicate-free — `Jan-25` denotes both January 1925 and January 2025, so the claim's
"duplicate-free" fails as stated (the label at position 0 equals the label at
position 1200). -/
theorem getMonthColumns_not_nodup :
    ¬ (getMonthColumns ⟨1925, 0, 1⟩ ⟨2025, 0, 1⟩).Nodup := by
  intro hnd
  have hc := getMonthColumns_eq ⟨1925, 0, 1⟩ ⟨2025, 0, 1⟩ (by decide) (by decide)
  have hlen : (getMonthColumns ⟨1925, 0, 1⟩ ⟨2025, 0, 1⟩).length = 1201 := by
    rw [hc]; simp [monthIdx]
  have h0 : (getMonthColumns ⟨1925, 0, 1⟩ ⟨2025, 0, 1⟩)[0]? = some "Jan-25" := by
    rw [hc, List.getElem?_map]
    decide
  have h1200 : (getMonthColumns ⟨1925, 0, 1⟩ ⟨2025, 0, 1⟩)[1200]? = some "Jan-25" := by
    rw [hc, List.getElem?_map]
    decide
  have : (0 : Nat) = 1200 := by
    refine List.getElem?_inj (by omega) hnd ?_
    rw [h0, h1200]
  omega

/-- C8 (amended): `getMonthColumns` returns the empty sequence exactly when end's
calendar month strictly precedes begin's calendar month. In particular, for begin
after end but inside the same calendar month, the result is that month's single
label, not the empty sequence (see `getMonthColumns_same_month_cex`). -/
theorem getMonthColumns_nil_iff (b e : SDate) (hm : e.month < 12) (hd : 1 ≤ e.day) :
    getMonthColumns b e = [] ↔ monthIdx e < monthIdx b := by
  rw [getMonthColumns_eq b e hm hd]
  simp only [List.map_eq_nil_iff, List.range'_eq_nil]
  omega

/-- Witness for `getMonthColumns_nil_iff`: Feb 1 2024 .. Jan 31 2024 gives the empty
sequence. -/
theorem getMonthColumns_nil_iff_witness :
    (⟨2024, 0, 31⟩ : SDate).month < 12 ∧ 1 ≤ (⟨2024, 0, 31⟩ : SDate).day
    ∧ getMonthColumns ⟨2024, 1, 1⟩ ⟨2024, 0, 31⟩ = [] := by
  refine ⟨by decide, by decide, ?_⟩
  exact (getMonthColumns_nil_iff ⟨2024, 1, 1⟩ ⟨2024, 0, 31⟩ (by decide) (by decide)).mpr
    (by decide)

/-- C8 counterexample: begin Jan 20 2024 is strictly after end Jan 10 2024, yet
`getMonthColumns` returns `["Jan-24"]`, not the empty sequence — the loop starts at
the first day of begin's month, which does not exceed the end date. -/
theorem getMonthColumns_same_month_cex :
    getMonthColumns ⟨2024, 0, 20⟩ ⟨2024, 0, 10⟩ = ["Jan-24"]
    ∧ getMonthColumns ⟨2024, 0, 20⟩ ⟨2024, 0, 10⟩ ≠ [] := by
  constructor
  · decide
  · decide

/-!
Data model of the Row Normalizer (`processApiResponse`, worker.js lines 224-407).

JSON payloads are embedded post-parse: a performance period is represented by the
begin date the code extracts from it (`new Date(period.Begin_Date)`); counts are
`Int` (the code funnels every count through `parseInt(x) || 0`). The dual-shape
identifier containers of `extractItemData` / `getInstitutionId` (worker.js lines
409-471) are represented by their extracted results (`ItemData`, the header's
institution name/id), since no claim depends on the container decoding itself.
JS object dictionaries (`Performance`, `metricData`, `monthlyValues`) are
association lists with JS-object update semantics: updating an existing key keeps
its position, a new key is appended (`alUpd` below).
-/

/-- Output of `extractItemData`: the identifier fields of one report item. -/
structure ItemData where
  title : String
  publisher : String
  publisher_id : String
  platform : String
  doi : String
  proprietary_id : String
  print_issn : String
  online_issn : String
  uri : String
deriving DecidableEq

/-- One legacy-schema metric instance (`performance.Instance[i]`). -/
structure InstanceJ where
  Metric_Type : String
  Count : Int
deriving DecidableEq

/-- One legacy-schema performance period block; `Period` is the begin date the code
reads from it (`new Date(period.Begin_Date)`), `none` when the block has no
`Period` (the code skips such blocks). -/
structure PerfJ where
  Period : Option SDate
  Instance : List InstanceJ
deriving DecidableEq

/-- One current-schema `Attribute_Performance` entry: `Access_Type || ''`,
`YOP || ''`, and the per-metric-type month-count maps (month keys `YYYY-MM`). -/
structure AttrPerfJ where
  Access_Type : String
  YOP : String
  Performance : List (String × List (String × Int))
deriving DecidableEq

/-- One report item under either schema. `YOP` is the legacy item-level value
`item.YOP || item.Year_of_Publication || ''`. -/
structure ItemJ where
  base : ItemData
  Access_Type : String
  YOP : String
  Performance : List PerfJ
  Attribute_Performance : Option (List AttrPerfJ)
deriving DecidableEq

/-- Report header fields the normalizer reads: `Institution_Name` and the result
of `getInstitutionId`. -/
structure HeaderJ where
  Institution_Name : String
  Institution_ID : String
deriving DecidableEq

/-- One fetched report payload. -/
structure PayloadJ where
  Report_Header : Option HeaderJ
  Report_Items : List ItemJ
deriving DecidableEq

/-- Per-run request parameters used by the normalizer and renderers. -/
structure ReqData where
  report_type : String
  format : String
  begin_date : SDate
  end_date : SDate
deriving DecidableEq

/-- One account of the harvesting loop. -/
structure Account where
  customer_id : String
deriving DecidableEq

/-- A NormalizedRow. `Access_Type`/`YOP` are `none` when the report type does not
attach the column (the JS object simply lacks the property). `months` holds the
month-column properties in insertion order. -/
structure Row where
  Institution_Name : String
  Institution_ID : String
  Title : String
  Publisher : String
  Publisher_ID : String
  Platform : String
  DOI : String
  Proprietary_ID : String
  Print_ISSN : String
  Online_ISSN : String
  URI : String
  Metric_Type : String
  Reporting_Period_Total : Int
  Access_Type : Option String
  YOP : Option String
  months : List (String × Int)
deriving DecidableEq

/-- JS-object update on an association list: mutate the value in place when the key
exists, append the key otherwise. `f` is the mutation, `i` the fresh initial value
(`g[k] = f(g[k] ?? i)`). -/
def alUpd {β : Type} (g : List (String × β)) (k : String) (f : β → β) (i : β) :
    List (String × β) :=
  match g with
  | [] => [(k, f i)]
  | (k1, v) :: rest => if k1 = k then (k1, f v) :: rest else (k1, v) :: alUpd rest k f i

/-- Fold a row list into a JS-object dictionary, one `alUpd` per row. -/
def alFold {ρ β : Type} (key : ρ → String) (upd : ρ → β → β) (ini : ρ → β)
    (rows : List ρ) (g : List (String × β)) : List (String × β) :=
  rows.foldl (fun g2 r => alUpd g2 (key r) (upd r) (ini r)) g

/-- Plain JS-object assignment `obj[k] = v`. -/
def alSet (l : List (String × Int)) (k : String) (v : Int) : List (String × Int) :=
  alUpd l k (fun _ => v) 0

/-- `convertApiMonthToDisplayMonth` (worker.js lines 473-481): `"2025-01"` to
`"Jan-25"`. An out-of-range parsed month indexes outside the `months` array, which
in JS yields the string `"undefined"` in the template. -/
def convertApiMonthToDisplayMonth (apiMonth : String) : String :=
  let parts := splitDash apiMonth
  let y := parts.getD 0 ""
  let mo := parts.getD 1 ""
  let i : Int := ((parseIntPrefix mo).getD 0 : Int) - 1
  (if 0 ≤ i ∧ i < 12 then monthNames.getD i.toNat "undefined" else "undefined")
    ++ "-" ++ lastTwo y

/-- Accumulator cell of the legacy first pass (`metricData[metricType]`). -/
structure MCell where
  monthlyValues : List (String × Int)
  total : Int
deriving DecidableEq

/-- The traversal order of the legacy first pass (lines 311-333): for each period
block with a `Period`, its begin-date month label paired with each instance's
metric type and count, in source order. -/
def legacyTriples (item : ItemJ) : List (String × String × Int) :=
  (item.Performance.map (fun perf =>
    match perf.Period with
    | none => []
    | some d => perf.Instance.map (fun inst =>
        (inst.Metric_Type, formatMonthKey d.year d.month, inst.Count)))).flatten

/-- One legacy first-pass update (lines 330-331): SET the month value
(`monthlyValues[monthKey] = count`) and ADD to the running total (`total += count`). -/
def mcUpd (t : String × String × Int) (c : MCell) : MCell :=
  { monthlyValues := alSet c.monthlyValues t.2.1 t.2.2, total := c.total + t.2.2 }

/-- The legacy first pass: fold the triples into `metricData`. -/
def metricDataOf (item : ItemJ) : List (String × MCell) :=
  alFold (fun t => t.1) mcUpd (fun _ => { monthlyValues := [], total := 0 })
    (legacyTriples item) []

/-- Assemble one emitted entry (lines 266-297 / 337-368): identity fields, metric
type and total, report-type-conditional `Access_Type`/`YOP`, then one property per
run month column with the collected value or 0. -/
def mkEntry (req : ReqData) (monthCols : List String) (instName instId : String)
    (base : ItemData) (metricType : String) (total : Int)
    (monthlyValues : List (String × Int)) (accessType yop : String) : Row :=
  { Institution_Name := instName
    Institution_ID := instId
    Title := base.title
    Publisher := base.publisher
    Publisher_ID := base.publisher_id
    Platform := base.platform
    DOI := base.doi
    Proprietary_ID := base.proprietary_id
    Print_ISSN := base.print_issn
    Online_ISSN := base.online_issn
    URI := base.uri
    Metric_Type := metricType
    Reporting_Period_Total := total
    Access_Type := if jsToLower req.report_type = "tr_j3" then some accessType else none
    YOP := if jsToLower req.report_type = "tr_j4" then some yop else none
    months := monthCols.map (fun m => (m, (List.lookup m monthlyValues).getD 0)) }

/-- Current-schema per-metric month processing (lines 254-264): sum every count into
the total, and assign (not add) each count under its display month key. -/
def processMonthly (monthlyData : List (String × Int)) : List (String × Int) × Int :=
  monthlyData.foldl
    (fun acc p => (alSet acc.1 (convertApiMonthToDisplayMonth p.1) p.2, acc.2 + p.2))
    ([], 0)

/-- Current-schema (5.1) processing of one report item (lines 243-299). -/
def processItem51 (req : ReqData) (monthCols : List String) (instName instId : String)
    (item : ItemJ) : List Row :=
  ((item.Attribute_Performance.getD []).map (fun ap =>
    ap.Performance.map (fun mp =>
      let pm := processMonthly mp.2
      mkEntry req monthCols instName instId item.base mp.1 pm.2 pm.1
        ap.Access_Type ap.YOP))).flatten

/-- Legacy-schema (5) processing of one report item: second pass (lines 335-369)
emitting one row per accumulated metric type, in `metricData` insertion order. -/
def processItemV5 (req : ReqData) (monthCols : List String) (instName instId : String)
    (item : ItemJ) : List Row :=
  (metricDataOf item).map (fun tc =>
    mkEntry req monthCols instName instId item.base tc.1 tc.2.total tc.2.monthlyValues
      item.Access_Type item.YOP)

/-- The no-data placeholder row (lines 375-405). -/
def noDataEntry (req : ReqData) (monthCols : List String) (instName instId : String) : Row :=
  { Institution_Name := if instName = "" then "No Data" else instName
    Institution_ID := instId
    Title := "No usage data for this period"
    Publisher := ""
    Publisher_ID := ""
    Platform := ""
    DOI := ""
    Proprietary_ID := ""
    Print_ISSN := ""
    Online_ISSN := ""
    URI := ""
    Metric_Type := "No Data"
    Reporting_Period_Total := 0
    Access_Type := if jsToLower req.report_type = "tr_j3" then some "" else none
    YOP := if jsToLower req.report_type = "tr_j4" then some "" else none
    months := monthCols.map (fun m => (m, 0)) }

/-- `processApiResponse` (lines 224-407): version sniffing on the format hint or the
first item's `Attribute_Performance`, then per-item row emission, or the single
no-data row. Both non-empty branches report success; only the caller's catch block
produces failure. -/
def processApiResponse (j : PayloadJ) (req : ReqData) (_acct : Account) :
    List Row × Bool :=
  let instName := (j.Report_Header.map (fun h => h.Institution_Name)).getD ""
  let instId := (j.Report_Header.map (fun h => h.Institution_ID)).getD ""
  let monthCols := getMonthColumns req.begin_date req.end_date
  match j.Report_Items with
  | [] => ([noDataEntry req monthCols instName instId], true)
  | items =>
    if req.format = "5.1" ∨ (items.head?.elim false (fun it => it.Attribute_Performance.isSome))
    then ((items.map (processItem51 req monthCols instName instId)).flatten, true)
    else ((items.map (processItemV5 req monthCols instName instId)).flatten, true)

/-- `createErrorEntry` (lines 506-541): the synthetic fetch-failure row. -/
def createErrorEntry (message : String) (req : ReqData) (acct : Account) : Row :=
  let monthCols := getMonthColumns req.begin_date req.end_date
  { Institution_Name := "ERROR"
    Institution_ID := acct.customer_id
    Title := "Failed: " ++ message
    Publisher := ""
    Publisher_ID := ""
    Platform := ""
    DOI := ""
    Proprietary_ID := ""
    Print_ISSN := ""
    Online_ISSN := ""
    URI := ""
    Metric_Type := "ERROR"
    Reporting_Period_Total := 0
    Access_Type := if jsToLower req.report_type = "tr_j3" then some "" else none
    YOP := if jsToLower req.report_type = "tr_j4" then some "" else none
    months := monthCols.map (fun m => (m, 0)) }

/-- One iteration of the harvesting loop's try/catch (worker.js lines 100-122): a
failed or throwing fetch contributes exactly the one synthetic error row and counts
the account as failed; a delivered payload contributes the normalizer's rows and
its success flag. -/
def accountStep (fetched : Except String PayloadJ) (req : ReqData) (acct : Account) :
    List Row × Bool :=
  match fetched with
  | Except.error msg => ([createErrorEntry msg req acct], false)
  | Except.ok j => processApiResponse j req acct

/-!
Association-list lemmas: how `alUpd`/`alFold` dictionaries answer `List.lookup`,
and what their key lists are.
-/

theorem alUpd_lookup_self {β : Type} (g : List (String × β)) (k : String) (f : β → β)
    (i : β) : List.lookup k (alUpd g k f i) = some (f ((List.lookup k g).getD i)) := by
  induction g with
  | nil => simp [alUpd, List.lookup]
  | cons p rest ih =>
    obtain ⟨k1, v⟩ := p
    by_cases h : k1 = k
    · subst h
      simp [alUpd, List.lookup]
    · have hne : (k == k1) = false := by simp [Ne.symm h]
      simp [alUpd, h, List.lookup, hne, ih]

theorem alUpd_lookup_ne {β : Type} (g : List (String × β)) (k k2 : String) (f : β → β)
    (i : β) (h : k2 ≠ k) : List.lookup k2 (alUpd g k f i) = List.lookup k2 g := by
  induction g with
  | nil =>
    have hne : (k2 == k) = false := by simp [h]
    simp [alUpd, List.lookup, hne]
  | cons p rest ih =>
    obtain ⟨k1, v⟩ := p
    by_cases h1 : k1 = k
    · subst h1
      have hne : (k2 == k1) = false := by simp [h]
      simp [alUpd, List.lookup, hne]
    · by_cases h2 : k2 = k1
      · subst h2
        simp [alUpd, h1, List.lookup]
      · have hne : (k2 == k1) = false := by simp [h2]
        simp [alUpd, h1, List.lookup, hne, ih]

theorem alUpd_keys {β : Type} (g : List (String × β)) (k : String) (f : β → β) (i : β) :
    (alUpd g k f i).map Prod.fst
      = if k ∈ g.map Prod.fst then g.map Prod.fst else g.map Prod.fst ++ [k] := by
  induction g with
  | nil => simp [alUpd]
  | cons p rest ih =>
    obtain ⟨k1, v⟩ := p
    by_cases h : k1 = k
    · subst h
      simp [alUpd]
    · simp only [alUpd, if_neg h, List.map_cons, ih]
      by_cases h2 : k ∈ rest.map Prod.fst
      · simp [h2, List.mem_cons, Ne.symm h]
      · simp [h2, List.mem_cons, Ne.symm h]

theorem alFold_lookup {ρ β : Type} (key : ρ → String) (upd : ρ → β → β) (ini : ρ → β)
    (k : String) : ∀ (rows : List ρ) (g : List (String × β)),
    List.lookup k (alFold key upd ini rows g)
      = (rows.filter (fun r => key r == k)).foldl
          (fun acc r => some (upd r (acc.getD (ini r)))) (List.lookup k g) := by
  intro rows
  induction rows with
  | nil => intro g; rfl
  | cons r rest ih =>
    intro g
    have hstep : alFold key upd ini (r :: rest) g
        = alFold key upd ini rest (alUpd g (key r) (upd r) (ini r)) := rfl
    rw [hstep, ih]
    by_cases h : key r = k
    · rw [List.filter_cons_of_pos (by simp [h])]
      rw [List.foldl_cons]
      subst h
      rw [alUpd_lookup_self]
    · rw [List.filter_cons_of_neg (by simp [h])]
      rw [alUpd_lookup_ne g (key r) k (upd r) (ini r) (Ne.symm h)]

theorem alFold_keys {ρ β : Type} (key : ρ → String) (upd : ρ → β → β) (ini : ρ → β) :
    ∀ (rows : List ρ) (g : List (String × β)),
    (alFold key upd ini rows g).map Prod.fst
      = rows.foldl (fun ks r => if key r ∈ ks then ks else ks ++ [key r])
          (g.map Prod.fst) := by
  intro rows
  induction rows with
  | nil => intro g; rfl
  | cons r rest ih =>
    intro g
    have hstep : alFold key upd ini (r :: rest) g
        = alFold key upd ini rest (alUpd g (key r) (upd r) (ini r)) := rfl
    rw [hstep, ih, List.foldl_cons, alUpd_keys]

theorem insKeysAux_mem : ∀ (l ks : List String) (k : String),
    (k ∈ l.foldl (fun ks2 k2 => if k2 ∈ ks2 then ks2 else ks2 ++ [k2]) ks)
      ↔ k ∈ ks ∨ k ∈ l := by
  intro l
  induction l with
  | nil => simp
  | cons a l ih =>
    intro ks k
    rw [List.foldl_cons]
    by_cases h : a ∈ ks
    · rw [if_pos h, ih]
      constructor
      · rintro (hk | hk)
        · exact Or.inl hk
        · exact Or.inr (List.mem_cons_of_mem a hk)
      · rintro (hk | hk)
        · exact Or.inl hk
        · rcases List.mem_cons.mp hk with hk | hk
          · exact Or.inl (hk ▸ h)
          · exact Or.inr hk
    · rw [if_neg h, ih]
      simp only [List.mem_append, List.mem_singleton, List.mem_cons]
      tauto

theorem insKeysAux_nodup : ∀ (l ks : List String), ks.Nodup →
    (l.foldl (fun ks2 k2 => if k2 ∈ ks2 then ks2 else ks2 ++ [k2]) ks).Nodup := by
  intro l
  induction l with
  | nil => intro ks h; exact h
  | cons a l ih =>
    intro ks h
    rw [List.foldl_cons]
    by_cases ha : a ∈ ks
    · rw [if_pos ha]; exact ih ks h
    · rw [if_neg ha]
      refine ih (ks ++ [a]) ?_
      simp [List.nodup_append, h, ha]

theorem alFold_keys_nodup {ρ β : Type} (key : ρ → String) (upd : ρ → β → β)
    (ini : ρ → β) (rows : List ρ) :
    ((alFold key upd ini rows []).map Prod.fst).Nodup := by
  rw [alFold_keys]
  have hfm : rows.foldl (fun ks r => if key r ∈ ks then ks else ks ++ [key r])
        ((([] : List (String × β))).map Prod.fst)
      = (rows.map key).foldl (fun ks k2 => if k2 ∈ ks then ks else ks ++ [k2]) [] := by
    rw [List.foldl_map]
    rfl
  rw [hfm]
  exact insKeysAux_nodup _ _ List.nodup_nil

theorem alFold_keys_mem {ρ β : Type} (key : ρ → String) (upd : ρ → β → β)
    (ini : ρ → β) (rows : List ρ) (k : String) :
    k ∈ (alFold key upd ini rows []).map Prod.fst ↔ k ∈ rows.map key := by
  rw [alFold_keys]
  have hfm : rows.foldl (fun ks r => if key r ∈ ks then ks else ks ++ [key r])
        (([] : List (String × β)).map Prod.fst)
      = (rows.map key).foldl (fun ks k2 => if k2 ∈ ks then ks else ks ++ [k2]) [] := by
    rw [List.foldl_map]
    rfl
  rw [hfm, insKeysAux_mem]
  simp only [List.not_mem_nil, false_or]

theorem lookup_of_mem_nodup {β : Type} : ∀ (l : List (String × β)) (k : String) (v : β),
    (l.map Prod.fst).Nodup → (k, v) ∈ l → List.lookup k l = some v := by
  intro l
  induction l with
  | nil => intro k v _ h; simp at h
  | cons p rest ih =>
    intro k v hnd hmem
    obtain ⟨k1, v1⟩ := p
    rcases List.mem_cons.mp hmem with heq | hmem2
    · obtain ⟨h1, h2⟩ := Prod.mk.injEq .. ▸ heq
      cases heq
      simp [List.lookup]
    · have hk : k ≠ k1 := by
        intro hkk
        subst hkk
        have : k ∈ rest.map Prod.fst := List.mem_map.mpr ⟨(k, v), hmem2, rfl⟩
        simp at hnd
        exact hnd.1 v ‹(k, v) ∈ rest›
      have hne : (k == k1) = false := by simp [hk]
      simp only [List.lookup, hne]
      exact ih k v (by simp at hnd ⊢; exact hnd.2) hmem2

theorem lookup_map_self (mc : List String) (f : String → Int) (m : String) (hm : m ∈ mc) :
    List.lookup m (mc.map (fun x => (x, f x))) = some (f m) := by
  induction mc with
  | nil => simp at hm
  | cons c rest ih =>
    by_cases h : m = c
    · subst h
      simp [List.lookup]
    · have hne : (m == c) = false := by simp [h]
      simp only [List.map_cons, List.lookup, hne]
      exact ih (by rcases List.mem_cons.mp hm with h2 | h2; exact absurd h2 h; exact h2)

theorem months_map_fst (mc : List String) (f : String → Int) :
    ((mc.map (fun m => (m, f m))).map Prod.fst) = mc := by
  induction mc with
  | nil => rfl
  | cons c rest ih => simp only [List.map_cons] at ih ⊢; rw [ih]

/-!
Lemmas on JS-object assignment folds, and the Row Normalizer claims (C2, C5, C6, C9).
-/

theorem lookup_append {β : Type} (l1 l2 : List (String × β)) (k : String) :
    List.lookup k (l1 ++ l2)
      = (List.lookup k l1).orElse (fun _ => List.lookup k l2) := by
  induction l1 with
  | nil => simp [List.lookup, Option.orElse]
  | cons p rest ih =>
    obtain ⟨k1, v1⟩ := p
    by_cases h : k = k1
    · subst h
      simp [List.lookup, Option.orElse]
    · have hne : (k == k1) = false := by simp [h]
      simp only [List.cons_append, List.lookup, hne]
      exact ih

theorem alSet_lookup_self (l : List (String × Int)) (k : String) (v : Int) :
    List.lookup k (alSet l k v) = some v := by
  rw [alSet, alUpd_lookup_self]

theorem alSet_lookup_ne (l : List (String × Int)) (k k2 : String) (v : Int) (h : k2 ≠ k) :
    List.lookup k2 (alSet l k v) = List.lookup k2 l := by
  rw [alSet, alUpd_lookup_ne _ _ _ _ _ h]

theorem foldl_alSet_lookup :
    ∀ (ps : List (String × Int)) (l0 : List (String × Int)) (L : String),
    List.lookup L (ps.foldl (fun a p => alSet a p.1 p.2) l0)
      = (List.lookup L ps.reverse).orElse (fun _ => List.lookup L l0) := by
  intro ps
  induction ps with
  | nil => intro l0 L; simp [Option.orElse]
  | cons p rest ih =>
    intro l0 L
    rw [List.foldl_cons, ih, List.reverse_cons, lookup_append]
    cases hL : List.lookup L rest.reverse with
    | some v => rfl
    | none =>
      by_cases hp : L = p.1
      · subst hp
        obtain ⟨k0, v0⟩ := p
        simp [Option.orElse, List.lookup, alSet_lookup_self]
      · have hne : (L == p.1) = false := by simp [hp]
        obtain ⟨k0, v0⟩ := p
        simp only at hne
        simp [Option.orElse, List.lookup, hne, alSet_lookup_ne l0 k0 L v0 hp]

theorem optFoldl_some {ρ β : Type} (upd : ρ → β → β) (ini : ρ → β) :
    ∀ (ts : List ρ) (c : β),
    ts.foldl (fun acc r => some (upd r (acc.getD (ini r)))) (some c)
      = some (ts.foldl (fun c2 r => upd r c2) c) := by
  intro ts
  induction ts with
  | nil => intro c; rfl
  | cons t rest ih => intro c; rw [List.foldl_cons, List.foldl_cons]; exact ih (upd t c)

theorem mcFoldl_total : ∀ (ts : List (String × String × Int)) (c : MCell),
    (ts.foldl (fun c2 t => mcUpd t c2) c).total
      = c.total + (ts.map (fun t => t.2.2)).sum := by
  intro ts
  induction ts with
  | nil => intro c; simp
  | cons t rest ih =>
    intro c
    rw [List.foldl_cons, ih]
    simp only [mcUpd, List.map_cons, List.sum_cons]
    omega

theorem mcFoldl_mv : ∀ (ts : List (String × String × Int)) (c : MCell),
    (ts.foldl (fun c2 t => mcUpd t c2) c).monthlyValues
      = (ts.map (fun t => (t.2.1, t.2.2))).foldl (fun l p => alSet l p.1 p.2)
          c.monthlyValues := by
  intro ts
  induction ts with
  | nil => intro c; rfl
  | cons t rest ih => intro c; rw [List.foldl_cons, List.map_cons, List.foldl_cons]; exact ih _

/-- The metric instances of one metric type, in first-pass traversal order. -/
def typeTriples (item : ItemJ) (t : String) : List (String × String × Int) :=
  (legacyTriples item).filter (fun tr => tr.1 == t)

theorem metricDataOf_mem (item : ItemJ) (t : String) (cell : MCell)
    (hmem : (t, cell) ∈ metricDataOf item) :
    cell.total = ((typeTriples item t).map (fun tr => tr.2.2)).sum
    ∧ ∀ L, List.lookup L cell.monthlyValues
        = List.lookup L (((typeTriples item t).map (fun tr => (tr.2.1, tr.2.2))).reverse) := by
  have hnd := alFold_keys_nodup (fun tr => tr.1) mcUpd
    (fun _ => ({ monthlyValues := [], total := 0 } : MCell)) (legacyTriples item)
  have hlk : List.lookup t (metricDataOf item) = some cell :=
    lookup_of_mem_nodup _ t cell hnd hmem
  rw [metricDataOf, alFold_lookup] at hlk
  cases hcase : (legacyTriples item).filter (fun r => r.1 == t) with
  | nil =>
    rw [hcase] at hlk
    simp [List.lookup] at hlk
  | cons t0 rest =>
    rw [hcase] at hlk
    rw [List.foldl_cons] at hlk
    rw [show (List.lookup t ([] : List (String × MCell))) = none from rfl] at hlk
    rw [show (some (mcUpd t0 ((none : Option MCell).getD { monthlyValues := [], total := 0 })))
        = some ((fun c2 r => mcUpd r c2) ({ monthlyValues := [], total := 0 } : MCell) t0)
        from rfl] at hlk
    rw [optFoldl_some] at hlk
    have hcell : cell = (t0 :: rest).foldl (fun c2 r => mcUpd r c2)
        { monthlyValues := [], total := 0 } := by
      rw [List.foldl_cons]
      exact (Option.some.inj hlk).symm
    have hts : typeTriples item t = t0 :: rest := by rw [typeTriples, hcase]
    constructor
    · rw [hcell, mcFoldl_total, hts]
      simp
    · intro L
      rw [hcell, mcFoldl_mv, foldl_alSet_lookup, hts]
      cases hL : List.lookup L ((t0 :: rest).map (fun t2 => (t2.2.1, t2.2.2))).reverse with
      | some v => rfl
      | none => simp [Option.orElse, List.lookup]

/-- C2 input: one legacy item with two performance periods both in January 2024,
counts 3 and 4 for the same metric type. -/
def c2Item : ItemJ :=
  { base := { title := "T1", publisher := "", publisher_id := "", platform := "", doi := "",
              proprietary_id := "", print_issn := "", online_issn := "", uri := "" }
    Access_Type := ""
    YOP := ""
    Performance :=
      [{ Period := some ⟨2024, 0, 1⟩, Instance := [{ Metric_Type := "Total_Item_Requests", Count := 3 }] },
       { Period := some ⟨2024, 0, 16⟩, Instance := [{ Metric_Type := "Total_Item_Requests", Count := 4 }] }]
    Attribute_Performance := none }

/-- C2 request: legacy tr_j1 over January-February 2024. -/
def c2Req : ReqData := { report_type := "tr_j1", format := "", begin_date := ⟨2024, 0, 1⟩,
                         end_date := ⟨2024, 1, 28⟩ }

/-- C2 row: the single row the legacy path emits for `c2Item`. -/
def c2Row : Row :=
  { Institution_Name := "A", Institution_ID := "ida", Title := "T1", Publisher := "",
    Publisher_ID := "", Platform := "", DOI := "", Proprietary_ID := "", Print_ISSN := "",
    Online_ISSN := "", URI := "", Metric_Type := "Total_Item_Requests",
    Reporting_Period_Total := 7, Access_Type := none, YOP := none,
    months := [("Jan-24", 4), ("Feb-24", 0)] }

/-- C2 counterexample: two same-month periods with counts 3 and 4 give a row whose
reporting-period total is 7 but whose `Jan-24` column is 4, the LAST count — the
month value is assigned, not accumulated, so it is not the claimed sum 3 + 4 and the
month columns do not sum to the total. -/
theorem legacy_month_overwrite_cex :
    ((processApiResponse ⟨some ⟨"Inst A", "ida"⟩, [c2Item]⟩ c2Req ⟨"cust1"⟩).1.map
        (fun row => (row.Metric_Type, row.Reporting_Period_Total,
          (List.lookup "Jan-24" row.months).getD 0)))
      = [("Total_Item_Requests", 7, 4)]
    ∧ ((4 : Int) = 3 + 4 → False) := by
  refine ⟨by decide, by decide⟩

/-- C2 (amended): in the legacy (v5) path, each emitted row's reporting-period total
is the SUM of that metric type's instance counts over all performance periods, while
a month column holds the count of the LAST instance of that type whose period maps
to that label (later same-label instances overwrite earlier ones), or 0 when none
maps to it. The claim's "accumulated sum per month column" and "month columns sum to
the total" hold only when no metric type sees two instances with the same label. -/
theorem processItemV5_row_values (req : ReqData) (mc : List String)
    (instName instId : String) (item : ItemJ) (row : Row)
    (hrow : row ∈ processItemV5 req mc instName instId item) :
    row.Reporting_Period_Total
      = ((typeTriples item row.Metric_Type).map (fun tr => tr.2.2)).sum
    ∧ ∀ m ∈ mc, (List.lookup m row.months).getD 0
        = (List.lookup m (((typeTriples item row.Metric_Type).map
            (fun tr => (tr.2.1, tr.2.2))).reverse)).getD 0 := by
  rw [processItemV5, List.mem_map] at hrow
  obtain ⟨tc, htc, heq⟩ := hrow
  obtain ⟨t, cell⟩ := tc
  have hchar := metricDataOf_mem item t cell htc
  have hmt : row.Metric_Type = t := by rw [← heq]; rfl
  constructor
  · have htot : row.Reporting_Period_Total = cell.total := by rw [← heq]; rfl
    rw [htot, hmt]
    exact hchar.1
  · intro m hm
    have hl : List.lookup m row.months = some ((List.lookup m cell.monthlyValues).getD 0) := by
      rw [← heq]
      exact lookup_map_self mc _ m hm
    rw [hl, hmt, Option.getD_some, hchar.2 m]

/-- Witness for `processItemV5_row_values` at `c2Item`. -/
theorem processItemV5_row_values_witness :
    c2Row ∈ processItemV5 c2Req ["Jan-24", "Feb-24"] "A" "ida" c2Item
    ∧ (c2Row.Reporting_Period_Total
        = ((typeTriples c2Item c2Row.Metric_Type).map (fun tr => tr.2.2)).sum
      ∧ ∀ m ∈ ["Jan-24", "Feb-24"], (List.lookup m c2Row.months).getD 0
          = (List.lookup m (((typeTriples c2Item c2Row.Metric_Type).map
              (fun tr => (tr.2.1, tr.2.2))).reverse)).getD 0) :=
  ⟨by decide, processItemV5_row_values c2Req ["Jan-24", "Feb-24"] "A" "ida" c2Item c2Row
    (by decide)⟩

/-- C9: a payload whose report-items list is empty yields exactly one row, with
metric type "No Data", institution fields from the header when available (name
falling back to "No Data" when empty), total 0, every month column 0, and the
account counted as a success. -/
theorem processApiResponse_noItems (hdr : Option HeaderJ) (req : ReqData) (acct : Account) :
    processApiResponse ⟨hdr, []⟩ req acct
      = ([noDataEntry req (getMonthColumns req.begin_date req.end_date)
            ((hdr.map (fun h => h.Institution_Name)).getD "")
            ((hdr.map (fun h => h.Institution_ID)).getD "")], true)
    ∧ (noDataEntry req (getMonthColumns req.begin_date req.end_date)
        ((hdr.map (fun h => h.Institution_Name)).getD "")
        ((hdr.map (fun h => h.Institution_ID)).getD "")).Metric_Type = "No Data"
    ∧ (noDataEntry req (getMonthColumns req.begin_date req.end_date)
        ((hdr.map (fun h => h.Institution_Name)).getD "")
        ((hdr.map (fun h => h.Institution_ID)).getD "")).Reporting_Period_Total = 0
    ∧ (noDataEntry req (getMonthColumns req.begin_date req.end_date)
        ((hdr.map (fun h => h.Institution_Name)).getD "")
        ((hdr.map (fun h => h.Institution_ID)).getD "")).Institution_Name
        = (if (hdr.map (fun h => h.Institution_Name)).getD "" = "" then "No Data"
           else (hdr.map (fun h => h.Institution_Name)).getD "")
    ∧ (noDataEntry req (getMonthColumns req.begin_date req.end_date)
        ((hdr.map (fun h => h.Institution_Name)).getD "")
        ((hdr.map (fun h => h.Institution_ID)).getD "")).months
        = (getMonthColumns req.begin_date req.end_date).map (fun m => (m, 0)) :=
  ⟨rfl, rfl, rfl, rfl, rfl⟩

/-- C6: a failed or throwing fetch contributes exactly one synthetic row —
institution name "ERROR", institution id the account identifier, title
"Failed: " followed by the error text, metric type "ERROR", total 0, every month
column 0 — and the account is counted as failed; no other row of that account is
emitted. -/
theorem accountStep_failure (msg : String) (req : ReqData) (acct : Account) :
    accountStep (Except.error msg) req acct = ([createErrorEntry msg req acct], false)
    ∧ (createErrorEntry msg req acct).Institution_Name = "ERROR"
    ∧ (createErrorEntry msg req acct).Institution_ID = acct.customer_id
    ∧ (createErrorEntry msg req acct).Title = "Failed: " ++ msg
    ∧ (createErrorEntry msg req acct).Metric_Type = "ERROR"
    ∧ (createErrorEntry msg req acct).Reporting_Period_Total = 0
    ∧ (createErrorEntry msg req acct).months
        = (getMonthColumns req.begin_date req.end_date).map (fun m => (m, 0)) :=
  ⟨rfl, rfl, rfl, rfl, rfl, rfl, rfl⟩

theorem mkEntry_months (req : ReqData) (mc : List String) (n i : String) (b : ItemData)
    (t : String) (tot : Int) (mv : List (String × Int)) (a y : String) :
    (mkEntry req mc n i b t tot mv a y).months
      = mc.map (fun m => (m, (List.lookup m mv).getD 0)) := rfl

theorem processApiResponse_nil (hdr : Option HeaderJ) (req : ReqData) (acct : Account) :
    processApiResponse ⟨hdr, []⟩ req acct
      = ([noDataEntry req (getMonthColumns req.begin_date req.end_date)
            ((hdr.map (fun h => h.Institution_Name)).getD "")
            ((hdr.map (fun h => h.Institution_ID)).getD "")], true) := rfl

theorem processApiResponse_cons (hdr : Option HeaderJ) (it0 : ItemJ) (rest : List ItemJ)
    (req : ReqData) (acct : Account) :
    processApiResponse ⟨hdr, it0 :: rest⟩ req acct
      = (if req.format = "5.1" ∨ it0.Attribute_Performance.isSome
         then (((it0 :: rest).map (processItem51 req
                  (getMonthColumns req.begin_date req.end_date)
                  ((hdr.map (fun h => h.Institution_Name)).getD "")
                  ((hdr.map (fun h => h.Institution_ID)).getD ""))).flatten, true)
         else (((it0 :: rest).map (processItemV5 req
                  (getMonthColumns req.begin_date req.end_date)
                  ((hdr.map (fun h => h.Institution_Name)).getD "")
                  ((hdr.map (fun h => h.Institution_ID)).getD ""))).flatten, true)) := rfl

/-- C5: every row a run produces — data rows under either schema, the no-data
placeholder, and the synthetic fetch-failure row — carries exactly the month-column
key set `getMonthColumns req.begin_date req.end_date`, each value defaulting to 0
for months its source did not populate. -/
theorem run_month_columns (j : PayloadJ) (req : ReqData) (acct : Account) (msg : String) :
    (∀ row ∈ (processApiResponse j req acct).1,
        row.months.map Prod.fst = getMonthColumns req.begin_date req.end_date
        ∧ ∃ mv : List (String × Int),
            row.months = (getMonthColumns req.begin_date req.end_date).map
              (fun m => (m, (List.lookup m mv).getD 0)))
    ∧ (createErrorEntry msg req acct).months.map Prod.fst
        = getMonthColumns req.begin_date req.end_date
    ∧ ∀ p ∈ (createErrorEntry msg req acct).months, p.2 = 0 := by
  refine ⟨?_, months_map_fst _ _, ?_⟩
  · intro row hrow
    obtain ⟨hdr, items⟩ := j
    cases items with
    | nil =>
      rw [processApiResponse_nil] at hrow
      have hrow2 : row = noDataEntry req (getMonthColumns req.begin_date req.end_date)
          ((hdr.map (fun h => h.Institution_Name)).getD "")
          ((hdr.map (fun h => h.Institution_ID)).getD "") := by
        simpa using hrow
      subst hrow2
      exact ⟨months_map_fst _ _, ⟨[], rfl⟩⟩
    | cons it0 rest =>
      rw [processApiResponse_cons] at hrow
      by_cases hv : req.format = "5.1" ∨ it0.Attribute_Performance.isSome = true
      · rw [if_pos hv] at hrow
        simp only [List.mem_flatten, List.mem_map] at hrow
        obtain ⟨l, ⟨item, hitem, hleq⟩, hrl⟩ := hrow
        rw [← hleq] at hrl
        rw [processItem51] at hrl
        simp only [List.mem_flatten, List.mem_map] at hrl
        obtain ⟨l2, ⟨ap, hap, hl2⟩, hrl2⟩ := hrl
        rw [← hl2] at hrl2
        simp only [List.mem_map] at hrl2
        obtain ⟨mp, hmp, hre⟩ := hrl2
        rw [← hre, mkEntry_months]
        exact ⟨months_map_fst _ _, ⟨_, rfl⟩⟩
      · rw [if_neg hv] at hrow
        simp only [List.mem_flatten, List.mem_map] at hrow
        obtain ⟨l, ⟨item, hitem, hleq⟩, hrl⟩ := hrow
        rw [← hleq] at hrl
        rw [processItemV5] at hrl
        simp only [List.mem_map] at hrl
        obtain ⟨tc, htc, hre⟩ := hrl
        rw [← hre, mkEntry_months]
        exact ⟨months_map_fst _ _, ⟨_, rfl⟩⟩
  · intro p hp
    have : p ∈ (getMonthColumns req.begin_date req.end_date).map (fun m => (m, (0 : Int))) := hp
    simp only [List.mem_map] at this
    obtain ⟨m, _, hm⟩ := this
    rw [← hm]

/-- Witness for `run_month_columns`: the legacy single-item payload of C2's input
shape, evaluated at its single emitted row. -/
theorem run_month_columns_witness :
    (processApiResponse ⟨some ⟨"Inst A", "ida"⟩, []⟩
        ⟨"tr_j1", "", ⟨2024, 0, 1⟩, ⟨2024, 1, 28⟩⟩ ⟨"cust1"⟩).1.length = 1
    ∧ ∀ row ∈ (processApiResponse ⟨some ⟨"Inst A", "ida"⟩, []⟩
        ⟨"tr_j1", "", ⟨2024, 0, 1⟩, ⟨2024, 1, 28⟩⟩ ⟨"cust1"⟩).1,
        row.months.map Prod.fst
          = getMonthColumns (⟨2024, 0, 1⟩ : SDate) (⟨2024, 1, 28⟩ : SDate)
        ∧ ∃ mv : List (String × Int),
            row.months = (getMonthColumns (⟨2024, 0, 1⟩ : SDate) (⟨2024, 1, 28⟩ : SDate)).map
              (fun m => (m, (List.lookup m mv).getD 0)) :=
  ⟨by decide,
    (run_month_columns ⟨some ⟨"Inst A", "ida"⟩, []⟩
      ⟨"tr_j1", "", ⟨2024, 0, 1⟩, ⟨2024, 1, 28⟩⟩ ⟨"cust1"⟩ "m").1⟩

/-!
Pivot Aggregator (`formatAsPivot`, worker.js lines 566-833) and the flat CSV
renderer (`convertToCSV`, lines 835-875).

Cell month totals are kept as an `Int` list positionally aligned with the run's
month-column list (the code initializes exactly the keys of `monthColumns` on
every accumulator object, so the key set is fixed and positional alignment is
faithful). The JS `sort()` calls are modelled by an insertion sort; the claims
settled here depend only on the sorted list being a permutation of its input,
which `sortStrs_perm` provides.
-/

/-- The `validData` predicate of line 571: note it tests the TITLE against
"ERROR", not the metric type. -/
def isValidRow (r : Row) : Bool := r.Title ≠ "ERROR" && r.Metric_Type ≠ "No Data"

/-- The `errorData` predicate of line 572. -/
def isErrorRow (r : Row) : Bool := r.Title == "ERROR" || r.Metric_Type == "No Data"

/-- One pivot output row: label, nesting level, total, month values. -/
structure PivotRow where
  label : String
  level : Nat
  total : Int
  months : List Int
deriving DecidableEq

/-- One subtotal accumulator (`{ total: 0, [month]: 0, ... }`), months aligned with
the run's month columns. -/
structure PCell where
  total : Int
  months : List Int
deriving DecidableEq

/-- `parseInt(row[m]) || 0`: the row's month property, 0 when absent. -/
def rowMonthVal (r : Row) (m : String) : Int := (List.lookup m r.months).getD 0

/-- A fresh accumulator: total 0 and a 0 for every month column. -/
def emptyPCell (mc : List String) : PCell := ⟨0, mc.map (fun _ => 0)⟩

/-- Accumulate one row into a cell (lines 611-614 etc.): add the row's
reporting-period total and each month value. -/
def addRowPC (mc : List String) (c : PCell) (r : Row) : PCell :=
  ⟨c.total + r.Reporting_Period_Total,
   (mc.zip c.months).map (fun p => p.2 + rowMonthVal r p.1)⟩

/-- Add one cell into another (the `accessTotals.total += metricData.total` /
`forEach` pattern). -/
def addPC (a b : PCell) : PCell :=
  ⟨a.total + b.total, (a.months.zip b.months).map (fun p => p.1 + p.2)⟩

/-- `row.Access_Type || 'Unknown'` (line 602): absent or empty collapses to
"Unknown". -/
def effAccess (r : Row) : String :=
  match r.Access_Type with
  | none => "Unknown"
  | some s => if s = "" then "Unknown" else s

/-- `row.YOP || 'Unknown'` (line 682). -/
def effYop (r : Row) : String :=
  match r.YOP with
  | none => "Unknown"
  | some s => if s = "" then "Unknown" else s

/-- The fixed metric emission order (lines 619, 697, 782). -/
def metricOrder : List String :=
  ["Total_Item_Investigations", "Total_Item_Requests",
   "Unique_Item_Investigations", "Unique_Item_Requests"]

/-- The fixed access-type emission order (line 618). -/
def accessTypeOrder : List String := ["Controlled", "Free_To_Read", "Open"]

/-- Metric-type-keyed accumulation (the default `TR_J1`/`TR_J2` grouping,
lines 756-766). -/
def groupByMetric (mc : List String) (rows : List Row) : List (String × PCell) :=
  alFold (fun r => r.Metric_Type) (fun r c => addRowPC mc c r) (fun _ => emptyPCell mc)
    rows []

/-- The inner-dictionary update shared by the nested groupings: ensure the metric
bucket exists, then accumulate the row. -/
def innerUpd (mc : List String) (g2 : List (String × PCell)) (r : Row) :
    List (String × PCell) :=
  alUpd g2 r.Metric_Type (fun c => addRowPC mc c r) (emptyPCell mc)

/-- Two-level grouping (`Access_Type`/`YOP` then `Metric_Type`, lines 601-615 and
681-695). -/
def groupBy2 (mc : List String) (key1 : Row → String) (rows : List Row) :
    List (String × List (String × PCell)) :=
  alFold key1 (fun r g2 => innerUpd mc g2 r) (fun _ => []) rows []

/-- Walk `metricOrder` over an inner dictionary, adding the present cells
(the `accessTotals`/`yopTotals` loops). -/
def subTotals (mc : List String) (g2 : List (String × PCell)) : PCell :=
  metricOrder.foldl (fun acc mt =>
    match List.lookup mt g2 with
    | none => acc
    | some cell => addPC acc cell) (emptyPCell mc)

/-- The level-`lvl` metric rows of an inner dictionary, in `metricOrder`,
skipping the absent ones. -/
def metricRows (g2 : List (String × PCell)) (lvl : Nat) : List PivotRow :=
  metricOrder.filterMap (fun mt =>
    (List.lookup mt g2).map (fun cell => PivotRow.mk mt lvl cell.total cell.months))

/-- Insertion step of the sort model. -/
def insertSorted (le : String → String → Bool) (x : String) : List String → List String
  | [] => [x]
  | y :: ys => if le x y then x :: y :: ys else y :: insertSorted le x ys

/-- Insertion sort standing in for JS `Array.prototype.sort`; only the
permutation property matters for the claims below. -/
def sortStrs (le : String → String → Bool) (l : List String) : List String :=
  l.foldr (insertSorted le) []

/-- JS default sort order on institution names: code-unit lexicographic. -/
def instLe (a b : String) : Bool := decide (a ≤ b)

/-- The YOP comparator of lines 718-722: "Unknown" last, otherwise descending
numeric. -/
def yopLe (a b : String) : Bool :=
  if a = "Unknown" then false
  else if b = "Unknown" then true
  else decide (((parseIntPrefix b).getD 0) ≤ ((parseIntPrefix a).getD 0))

/-- Institution totals for the TR_J3 branch (lines 621-636): only the three fixed
access types, and within them only the four fixed metric types, contribute. -/
def instTotalsJ3 (mc : List String) (rows : List Row) : PCell :=
  (accessTypeOrder.filter
      (fun a => (List.lookup a (groupBy2 mc effAccess rows)).isSome)).foldl
    (fun acc a => addPC acc (subTotals mc ((List.lookup a (groupBy2 mc effAccess rows)).getD [])))
    (emptyPCell mc)

/-- Institution totals for the TR_J4 branch (lines 700-707): every YOP bucket
contributes, restricted to the four fixed metric types. -/
def instTotalsJ4 (mc : List String) (rows : List Row) : PCell :=
  (groupBy2 mc effYop rows).foldl (fun acc kg => addPC acc (subTotals mc kg.2))
    (emptyPCell mc)

/-- Institution totals for the default branch (lines 769-772): every metric bucket
contributes, fixed or not. -/
def instTotalsDefault (mc : List String) (rows : List Row) : PCell :=
  (groupByMetric mc rows).foldl (fun acc kc => addPC acc kc.2) (emptyPCell mc)

/-- The TR_J3 block of one institution (lines 599-677): header row, then per
present fixed access type a level-1 row and its level-2 metric rows. -/
def instBlockJ3 (mc : List String) (instName : String) (rows : List Row) :
    List PivotRow :=
  PivotRow.mk instName 0 (instTotalsJ3 mc rows).total (instTotalsJ3 mc rows).months ::
    ((accessTypeOrder.filter
        (fun a => (List.lookup a (groupBy2 mc effAccess rows)).isSome)).map (fun a =>
      PivotRow.mk a 1 (subTotals mc ((List.lookup a (groupBy2 mc effAccess rows)).getD [])).total
          (subTotals mc ((List.lookup a (groupBy2 mc effAccess rows)).getD [])).months
        :: metricRows ((List.lookup a (groupBy2 mc effAccess rows)).getD []) 2)).flatten

/-- The TR_J4 block of one institution (lines 679-752): header row, then per YOP
bucket (sorted, "Unknown" last) a level-1 row and its level-2 metric rows. -/
def instBlockJ4 (mc : List String) (instName : String) (rows : List Row) :
    List PivotRow :=
  PivotRow.mk instName 0 (instTotalsJ4 mc rows).total (instTotalsJ4 mc rows).months ::
    ((sortStrs yopLe ((groupBy2 mc effYop rows).map Prod.fst)).map (fun yop =>
      PivotRow.mk yop 1 (subTotals mc ((List.lookup yop (groupBy2 mc effYop rows)).getD [])).total
          (subTotals mc ((List.lookup yop (groupBy2 mc effYop rows)).getD [])).months
        :: metricRows ((List.lookup yop (groupBy2 mc effYop rows)).getD []) 2)).flatten

/-- The default block of one institution (lines 754-792): header row, then the
fixed-order level-1 metric rows. -/
def instBlockDefault (mc : List String) (instName : String) (rows : List Row) :
    List PivotRow :=
  PivotRow.mk instName 0 (instTotalsDefault mc rows).total
      (instTotalsDefault mc rows).months ::
    metricRows (groupByMetric mc rows) 1

/-- Report-type dispatch for one institution's block. -/
def instBlock (req : ReqData) (mc : List String) (instName : String)
    (rows : List Row) : List PivotRow :=
  if jsToLower req.report_type = "tr_j3" then instBlockJ3 mc instName rows
  else if jsToLower req.report_type = "tr_j4" then instBlockJ4 mc instName rows
  else instBlockDefault mc instName rows

/-- Report-type dispatch for one institution's totals. -/
def instTotalsPC (req : ReqData) (mc : List String) (rows : List Row) : PCell :=
  if jsToLower req.report_type = "tr_j3" then instTotalsJ3 mc rows
  else if jsToLower req.report_type = "tr_j4" then instTotalsJ4 mc rows
  else instTotalsDefault mc rows

/-- Valid rows (line 571). -/
def validData (data : List Row) : List Row := data.filter isValidRow

/-- Error/no-data rows (line 572). -/
def errorData (data : List Row) : List Row := data.filter isErrorRow

/-- `byInstitution` (lines 575-582): group valid rows by institution name, pushing
in arrival order. -/
def byInstitution (data : List Row) : List (String × List Row) :=
  alFold (fun r => r.Institution_Name) (fun r l => l ++ [r]) (fun _ => [])
    (validData data) []

/-- `Object.keys(byInstitution).sort()` (line 589). -/
def sortedInstitutions (data : List Row) : List String :=
  sortStrs instLe ((byInstitution data).map Prod.fst)

/-- The row list of one institution. -/
def instRowsOf (data : List Row) (inst : String) : List Row :=
  (List.lookup inst (byInstitution data)).getD []

/-- The pivot body: the per-institution blocks in sorted order, then the
Grand Total row accumulated from the institution totals (lines 795-806). -/
def pivotBody (data : List Row) (req : ReqData) : List PivotRow :=
  ((sortedInstitutions data).map (fun inst =>
      instBlock req (getMonthColumns req.begin_date req.end_date) inst
        (instRowsOf data inst))).flatten
    ++ [PivotRow.mk "Grand Total" 0
          ((sortedInstitutions data).foldl (fun acc inst =>
            addPC acc (instTotalsPC req (getMonthColumns req.begin_date req.end_date)
              (instRowsOf data inst))) (emptyPCell (getMonthColumns req.begin_date req.end_date))).total
          ((sortedInstitutions data).foldl (fun acc inst =>
            addPC acc (instTotalsPC req (getMonthColumns req.begin_date req.end_date)
              (instRowsOf data inst))) (emptyPCell (getMonthColumns req.begin_date req.end_date))).months]

/-- Two spaces per nesting level (line 814). -/
def indentStr : Nat → String
  | 0 => ""
  | n + 1 => "  " ++ indentStr n

/-- Plain quoting of a header or label cell. -/
def quoteCell (s : String) : String := "\"" ++ s ++ "\""

/-- One rendered pivot row (lines 812-821): quoted indented label, then unquoted
total and month numbers. -/
def pivotLine (r : PivotRow) : String :=
  String.intercalate ","
    (quoteCell (indentStr r.level ++ r.label) :: toString r.total :: r.months.map toString)

/-- The pivot header row (line 809). -/
def pivotHeaderLine (mc : List String) : String :=
  String.intercalate "," (("" :: "Reporting_Period_Total" :: mc).map quoteCell)

/-- The trailing error section (lines 824-830): blank line, marker, then one
id/title line per error row — empty when there are no error rows. -/
def errorLines (errs : List Row) : List String :=
  if errs = [] then []
  else "" :: "\"--- Errors ---\"" ::
    errs.map (fun r => quoteCell r.Institution_ID ++ "," ++ quoteCell r.Title)

/-- `formatAsPivot` (lines 566-833). -/
def formatAsPivot (data : List Row) (req : ReqData) : String :=
  String.intercalate "\n"
    ((pivotHeaderLine (getMonthColumns req.begin_date req.end_date)
        :: (pivotBody data req).map pivotLine)
      ++ errorLines (errorData data))

/-- The flat CSV base columns (lines 839-855), with the report-type-conditional
YOP and Access_Type columns. -/
def baseColumns (req : ReqData) : List String :=
  ["Institution_Name", "Institution_ID", "Title", "Publisher", "Publisher_ID",
   "Platform", "DOI", "Proprietary_ID", "Print_ISSN", "Online_ISSN", "URI"]
  ++ (if jsToLower req.report_type = "tr_j4" then ["YOP"] else [])
  ++ (if jsToLower req.report_type = "tr_j3" then ["Access_Type"] else [])
  ++ ["Metric_Type", "Reporting_Period_Total"]

/-- Property access `row[h]` of the flat renderer: `none` models an absent
property (`undefined`). -/
def rowField (r : Row) (h : String) : Option String :=
  if h = "Institution_Name" then some r.Institution_Name
  else if h = "Institution_ID" then some r.Institution_ID
  else if h = "Title" then some r.Title
  else if h = "Publisher" then some r.Publisher
  else if h = "Publisher_ID" then some r.Publisher_ID
  else if h = "Platform" then some r.Platform
  else if h = "DOI" then some r.DOI
  else if h = "Proprietary_ID" then some r.Proprietary_ID
  else if h = "Print_ISSN" then some r.Print_ISSN
  else if h = "Online_ISSN" then some r.Online_ISSN
  else if h = "URI" then some r.URI
  else if h = "Metric_Type" then some r.Metric_Type
  else if h = "Reporting_Period_Total" then some (toString r.Reporting_Period_Total)
  else if h = "YOP" then r.YOP
  else if h = "Access_Type" then r.Access_Type
  else (List.lookup h r.months).map (fun v => toString v)

/-- `String(v).replace(/"/g, '""')`. -/
def escQuotes (s : String) : String :=
  ⟨(s.data.map (fun c => if c = '"' then ['"', '"'] else [c])).flatten⟩

/-- One quoted data cell of the flat renderer (lines 867-869). -/
def csvCell (v : Option String) : String :=
  match v with
  | none => "\"\""
  | some s => "\"" ++ escQuotes s ++ "\""

/-- `convertToCSV` (lines 835-875): empty string for an empty row set, else
header plus one line per row. -/
def convertToCSV (data : List Row) (req : ReqData) : String :=
  if data = [] then ""
  else
    String.intercalate "\n"
      ((String.intercalate ","
          ((baseColumns req ++ getMonthColumns req.begin_date req.end_date).map quoteCell))
        :: data.map (fun r => String.intercalate ","
            ((baseColumns req ++ getMonthColumns req.begin_date req.end_date).map
              (fun h => csvCell (rowField r h)))))

/-!
Subtotal arithmetic lemmas for the Pivot Aggregator.
-/

theorem addPC_total (a b : PCell) : (addPC a b).total = a.total + b.total := rfl

theorem foldl_addPC_total {α : Type} (f : α → PCell) :
    ∀ (l : List α) (c0 : PCell),
    (l.foldl (fun acc x => addPC acc (f x)) c0).total
      = c0.total + (l.map (fun x => (f x).total)).sum := by
  intro l
  induction l with
  | nil => intro c0; simp
  | cons x rest ih =>
    intro c0
    rw [List.foldl_cons, ih]
    simp only [addPC_total, List.map_cons, List.sum_cons]
    omega

theorem foldl_lookup_addPC_total (g2 : List (String × PCell)) :
    ∀ (ord : List String) (c0 : PCell),
    (ord.foldl (fun acc mt =>
        match List.lookup mt g2 with
        | none => acc
        | some cell => addPC acc cell) c0).total
      = c0.total + (ord.map (fun mt => ((List.lookup mt g2).map PCell.total).getD 0)).sum := by
  intro ord
  induction ord with
  | nil => intro c0; simp
  | cons mt rest ih =>
    intro c0
    rw [List.foldl_cons]
    cases hmt : List.lookup mt g2 with
    | none => rw [ih]; simp [hmt]
    | some cell => rw [ih]; simp [hmt, addPC_total]; omega

theorem subTotals_total (mc : List String) (g2 : List (String × PCell)) :
    (subTotals mc g2).total
      = (metricOrder.map (fun mt => ((List.lookup mt g2).map PCell.total).getD 0)).sum := by
  rw [subTotals, foldl_lookup_addPC_total]
  simp [emptyPCell]

theorem filterMap_rows_sum (g2 : List (String × PCell)) (lvl : Nat) :
    ∀ (ord : List String),
    (((ord.filterMap (fun mt => (List.lookup mt g2).map
        (fun cell => PivotRow.mk mt lvl cell.total cell.months))).map PivotRow.total).sum)
      = (ord.map (fun mt => ((List.lookup mt g2).map PCell.total).getD 0)).sum := by
  intro ord
  induction ord with
  | nil => rfl
  | cons mt rest ih =>
    cases hmt : List.lookup mt g2 with
    | none => simp only [List.filterMap_cons, hmt, Option.map_none', List.map_cons,
        List.sum_cons, Option.getD_none, ih]; omega
    | some cell => simp only [List.filterMap_cons, hmt, Option.map_some', List.map_cons,
        List.sum_cons, Option.getD_some, ih]

theorem metricRows_sum (g2 : List (String × PCell)) (lvl : Nat) :
    ((metricRows g2 lvl).map PivotRow.total).sum
      = (metricOrder.map (fun mt => ((List.lookup mt g2).map PCell.total).getD 0)).sum :=
  filterMap_rows_sum g2 lvl metricOrder

theorem metricRows_level (g2 : List (String × PCell)) (lvl : Nat) :
    ∀ p ∈ metricRows g2 lvl, p.level = lvl := by
  intro p hp
  rw [metricRows, List.mem_filterMap] at hp
  obtain ⟨mt, _, hmt⟩ := hp
  cases hlk : List.lookup mt g2 with
  | none => rw [hlk] at hmt; simp at hmt
  | some cell => rw [hlk] at hmt; simp at hmt; rw [← hmt]

theorem metricRows_labels (g2 : List (String × PCell)) (lvl : Nat) :
    (metricRows g2 lvl).map PivotRow.label
      = metricOrder.filter (fun mt => (List.lookup mt g2).isSome) := by
  rw [metricRows]
  induction metricOrder with
  | nil => rfl
  | cons mt rest ih =>
    cases hmt : List.lookup mt g2 with
    | none => simp only [List.filterMap_cons, hmt, Option.map_none', List.filter_cons,
        Option.isSome_none, Bool.false_eq_true, if_false, ih]
    | some cell => simp only [List.filterMap_cons, hmt, Option.map_some', List.map_cons,
        List.filter_cons, Option.isSome_some, if_true, ih]

theorem lookup_eq_none_of_not_mem {β : Type} :
    ∀ (l : List (String × β)) (k : String), k ∉ l.map Prod.fst →
    List.lookup k l = none := by
  intro l
  induction l with
  | nil => intro k _; rfl
  | cons p rest ih =>
    intro k hk
    obtain ⟨k1, v1⟩ := p
    simp only [List.map_cons, List.mem_cons, not_or] at hk
    have hne : (k == k1) = false := by simp [hk.1]
    simp only [List.lookup, hne]
    exact ih k hk.2

theorem sum_map_ite (k0 : String) (t : Int) (f : String → Int) :
    ∀ (ord : List String), ord.Nodup → k0 ∈ ord → f k0 = 0 →
    (ord.map (fun k => if k = k0 then t else f k)).sum = t + (ord.map f).sum := by
  intro ord
  induction ord with
  | nil => intro _ hk _; simp at hk
  | cons a rest ih =>
    intro hnd hk hf
    have hnd2 := List.nodup_cons.mp hnd
    by_cases hak : a = k0
    · subst hak
      have hcong : rest.map (fun k => if k = a then t else f k) = rest.map f := by
        refine List.map_congr_left ?_
        intro x hx
        have hxa : x ≠ a := fun h2 => hnd2.1 (h2 ▸ hx)
        simp [hxa]
      simp only [List.map_cons, List.sum_cons, if_true, hcong, hf]
      omega
    · have hk0rest : k0 ∈ rest := by
        rcases List.mem_cons.mp hk with h2 | h2
        · exact absurd h2.symm hak
        · exact h2
      simp only [List.map_cons, List.sum_cons, if_neg hak]
      rw [ih hnd2.2 hk0rest hf]
      omega

theorem sum_lookup_eq :
    ∀ (g : List (String × PCell)) (ord : List String), ord.Nodup →
    (g.map Prod.fst).Nodup → (∀ k ∈ g.map Prod.fst, k ∈ ord) →
    (ord.map (fun mt => ((List.lookup mt g).map PCell.total).getD 0)).sum
      = (g.map (fun kc => kc.2.total)).sum := by
  intro g
  induction g with
  | nil =>
    intro ord _ _ _
    simp [List.lookup]
  | cons p rest ih =>
    intro ord hord hnd hsub
    obtain ⟨k0, c0⟩ := p
    rw [List.map_cons] at hnd
    have hnd2 := List.nodup_cons.mp hnd
    have hk0 : k0 ∈ ord := hsub k0 (by simp)
    have hrest0 : ((List.lookup k0 rest).map PCell.total).getD 0 = 0 := by
      rw [lookup_eq_none_of_not_mem rest k0 hnd2.1]
      rfl
    have hcong : ord.map (fun mt => ((List.lookup mt ((k0, c0) :: rest)).map PCell.total).getD 0)
        = ord.map (fun mt => if mt = k0 then c0.total
            else ((List.lookup mt rest).map PCell.total).getD 0) := by
      refine List.map_congr_left ?_
      intro mt _
      by_cases hmt : mt = k0
      · subst hmt; simp [List.lookup]
      · have hne : (mt == k0) = false := by simp [hmt]
        simp [List.lookup, hne, hmt]
    rw [hcong, sum_map_ite k0 c0.total _ ord hord hk0 hrest0]
    rw [ih ord hord hnd2.2 (fun k hk => hsub k (by simp [hk]))]
    simp

theorem insertSorted_perm (le : String → String → Bool) (x : String) :
    ∀ (l : List String), (insertSorted le x l).Perm (x :: l) := by
  intro l
  induction l with
  | nil => exact List.Perm.refl _
  | cons y ys ih =>
    rw [insertSorted]
    by_cases h : le x y
    · rw [if_pos h]
    · rw [if_neg h]
      exact (List.Perm.cons y ih).trans (List.Perm.swap x y ys)

theorem sortStrs_perm (le : String → String → Bool) :
    ∀ (l : List String), (sortStrs le l).Perm l := by
  intro l
  induction l with
  | nil => exact List.Perm.refl _
  | cons x xs ih =>
    have h1 : sortStrs le (x :: xs) = insertSorted le x (sortStrs le xs) := rfl
    rw [h1]
    exact (insertSorted_perm le x (sortStrs le xs)).trans (List.Perm.cons x ih)

theorem map_keys_lookup {γ : Type} (d : γ) :
    ∀ (g : List (String × γ)), (g.map Prod.fst).Nodup →
    (g.map Prod.fst).map (fun k => (List.lookup k g).getD d) = g.map Prod.snd := by
  intro g
  induction g with
  | nil => intro _; rfl
  | cons p rest ih =>
    intro hnd
    obtain ⟨k0, v0⟩ := p
    rw [List.map_cons] at hnd
    have hnd2 := List.nodup_cons.mp hnd
    have hcong : (rest.map Prod.fst).map (fun k => (List.lookup k ((k0, v0) :: rest)).getD d)
        = (rest.map Prod.fst).map (fun k => (List.lookup k rest).getD d) := by
      refine List.map_congr_left ?_
      intro k hk
      have hne : k ≠ k0 := fun hkk => hnd2.1 (hkk ▸ hk)
      have hb : (k == k0) = false := by simp [hne]
      simp [List.lookup, hb]
    rw [List.map_cons, List.map_cons, List.map_cons, hcong, ih hnd2.2]
    have hhead : List.lookup k0 ((k0, v0) :: rest) = some v0 := by simp [List.lookup]
    rw [hhead]
    rfl

theorem filter_level_one_flatten (f1 : String → PivotRow) (f2 : String → List PivotRow)
    (h1 : ∀ a, (f1 a).level = 1) (h2 : ∀ a p, p ∈ f2 a → p.level = 2) :
    ∀ (l : List String),
    ((l.map (fun a => f1 a :: f2 a)).flatten).filter (fun p => p.level == 1) = l.map f1 := by
  intro l
  induction l with
  | nil => rfl
  | cons a rest ih =>
    simp only [List.map_cons, List.flatten_cons, List.filter_append, ih]
    have hf1 : ((f1 a :: f2 a).filter (fun p => p.level == 1)) = [f1 a] := by
      rw [List.filter_cons_of_pos (by simp [h1 a])]
      rw [List.filter_eq_nil_iff.mpr]
      intro p hp
      simp [h2 a p hp]
    rw [hf1]
    rfl

theorem foldl_append_singleton :
    ∀ (ts : List Row) (l0 : List Row), ts.foldl (fun l r => l ++ [r]) l0 = l0 ++ ts := by
  intro ts
  induction ts with
  | nil => intro l0; simp
  | cons t rest ih => intro l0; rw [List.foldl_cons, ih]; simp

theorem foldl_push_eq :
    ∀ (ts : List Row) (acc0 : Option (List Row)),
    ts.foldl (fun acc r => some (acc.getD [] ++ [r])) acc0
      = if ts = [] then acc0 else some (acc0.getD [] ++ ts) := by
  intro ts
  induction ts with
  | nil => intro acc0; simp
  | cons t rest ih =>
    intro acc0
    rw [List.foldl_cons, ih]
    by_cases h : rest = []
    · subst h; simp
    · rw [if_neg h, if_neg (by simp)]
      simp

theorem byInstitution_lookup (data : List Row) (inst : String) :
    List.lookup inst (byInstitution data)
      = (if (validData data).filter (fun r => r.Institution_Name == inst) = []
         then none
         else some ((validData data).filter (fun r => r.Institution_Name == inst))) := by
  rw [byInstitution, alFold_lookup, foldl_push_eq]
  by_cases h : (validData data).filter (fun r => r.Institution_Name == inst) = []
  · simp [h, List.lookup]
  · simp [h, List.lookup]

theorem instRowsOf_eq (data : List Row) (inst : String) :
    instRowsOf data inst = (validData data).filter (fun r => r.Institution_Name == inst)
    ∨ (instRowsOf data inst = []
        ∧ (validData data).filter (fun r => r.Institution_Name == inst) = []) := by
  rw [instRowsOf, byInstitution_lookup]
  by_cases h : (validData data).filter (fun r => r.Institution_Name == inst) = []
  · right
    rw [if_pos h]
    exact ⟨rfl, h⟩
  · left
    rw [if_neg h]
    rfl

theorem instRowsOf_subset (data : List Row) (inst : String) :
    ∀ r ∈ instRowsOf data inst, r ∈ validData data := by
  intro r hr
  rcases instRowsOf_eq data inst with h | h
  · rw [h] at hr
    exact List.mem_of_mem_filter hr
  · rw [h.1] at hr
    simp at hr

theorem instTotalsDefault_total (mc : List String) (rows : List Row) :
    (instTotalsDefault mc rows).total
      = ((groupByMetric mc rows).map (fun kc => kc.2.total)).sum := by
  have h2 := foldl_addPC_total (fun kc : String × PCell => kc.2) (groupByMetric mc rows)
    (emptyPCell mc)
  simpa [emptyPCell, instTotalsDefault] using h2

theorem instTotalsJ3_total (mc : List String) (rows : List Row) :
    (instTotalsJ3 mc rows).total
      = ((accessTypeOrder.filter
          (fun a => (List.lookup a (groupBy2 mc effAccess rows)).isSome)).map
            (fun a => (subTotals mc
              ((List.lookup a (groupBy2 mc effAccess rows)).getD [])).total)).sum := by
  have h2 := foldl_addPC_total
    (fun a => subTotals mc ((List.lookup a (groupBy2 mc effAccess rows)).getD []))
    (accessTypeOrder.filter
      (fun a => (List.lookup a (groupBy2 mc effAccess rows)).isSome))
    (emptyPCell mc)
  simpa [emptyPCell, instTotalsJ3] using h2

theorem instTotalsJ4_total (mc : List String) (rows : List Row) :
    (instTotalsJ4 mc rows).total
      = ((groupBy2 mc effYop rows).map (fun kg => (subTotals mc kg.2).total)).sum := by
  have h2 := foldl_addPC_total (fun kg : String × List (String × PCell) => subTotals mc kg.2)
    (groupBy2 mc effYop rows) (emptyPCell mc)
  simpa [emptyPCell, instTotalsJ4] using h2

theorem blockDefault_parent_child (mc : List String) (inst : String) (rows : List Row)
    (h : ∀ r ∈ rows, r.Metric_Type ∈ metricOrder) :
    (((instBlockDefault mc inst rows).filter (fun p => p.level == 1)).map PivotRow.total).sum
      = (instTotalsDefault mc rows).total := by
  rw [instBlockDefault]
  rw [List.filter_cons_of_neg (by simp)]
  have hfill : (metricRows (groupByMetric mc rows) 1).filter (fun p => p.level == 1)
      = metricRows (groupByMetric mc rows) 1 :=
    List.filter_eq_self.mpr (fun p hp => by simp [metricRows_level _ _ p hp])
  rw [hfill, metricRows_sum]
  have hsub : ∀ k ∈ (groupByMetric mc rows).map Prod.fst, k ∈ metricOrder := by
    intro k hk
    rw [groupByMetric, alFold_keys_mem] at hk
    obtain ⟨r, hr, hre⟩ := List.mem_map.mp hk
    exact hre ▸ h r hr
  rw [sum_lookup_eq (groupByMetric mc rows) metricOrder (by decide)
    (alFold_keys_nodup _ _ _ _) hsub]
  rw [instTotalsDefault_total]

theorem blockJ3_parent_child (mc : List String) (inst : String) (rows : List Row) :
    (((instBlockJ3 mc inst rows).filter (fun p => p.level == 1)).map PivotRow.total).sum
      = (instTotalsJ3 mc rows).total := by
  rw [instBlockJ3]
  rw [List.filter_cons_of_neg (by simp)]
  rw [filter_level_one_flatten
    (fun a => PivotRow.mk a 1
      (subTotals mc ((List.lookup a (groupBy2 mc effAccess rows)).getD [])).total
      (subTotals mc ((List.lookup a (groupBy2 mc effAccess rows)).getD [])).months)
    (fun a => metricRows ((List.lookup a (groupBy2 mc effAccess rows)).getD []) 2)
    (fun a => rfl) (fun a p hp => metricRows_level _ _ p hp)]
  rw [List.map_map, instTotalsJ3_total]
  rfl

theorem blockJ4_parent_child (mc : List String) (inst : String) (rows : List Row) :
    (((instBlockJ4 mc inst rows).filter (fun p => p.level == 1)).map PivotRow.total).sum
      = (instTotalsJ4 mc rows).total := by
  rw [instBlockJ4]
  rw [List.filter_cons_of_neg (by simp)]
  rw [filter_level_one_flatten
    (fun yop => PivotRow.mk yop 1
      (subTotals mc ((List.lookup yop (groupBy2 mc effYop rows)).getD [])).total
      (subTotals mc ((List.lookup yop (groupBy2 mc effYop rows)).getD [])).months)
    (fun yop => metricRows ((List.lookup yop (groupBy2 mc effYop rows)).getD []) 2)
    (fun yop => rfl) (fun yop p hp => metricRows_level _ _ p hp)]
  have hstep1 : ((sortStrs yopLe ((groupBy2 mc effYop rows).map Prod.fst)).map (fun yop =>
      PivotRow.mk yop 1
        (subTotals mc ((List.lookup yop (groupBy2 mc effYop rows)).getD [])).total
        (subTotals mc ((List.lookup yop (groupBy2 mc effYop rows)).getD [])).months)).map
      PivotRow.total
      = (sortStrs yopLe ((groupBy2 mc effYop rows).map Prod.fst)).map
          (fun yop => (subTotals mc
            ((List.lookup yop (groupBy2 mc effYop rows)).getD [])).total) := by
    rw [List.map_map]
    rfl
  rw [hstep1]
  rw [((sortStrs_perm yopLe ((groupBy2 mc effYop rows).map Prod.fst)).map
    (fun yop => (subTotals mc
      ((List.lookup yop (groupBy2 mc effYop rows)).getD [])).total)).sum_eq]
  rw [instTotalsJ4_total]
  have e1 : (groupBy2 mc effYop rows).map (fun kg => (subTotals mc kg.2).total)
      = ((groupBy2 mc effYop rows).map Prod.snd).map (fun g2 => (subTotals mc g2).total) := by
    rw [List.map_map]
    rfl
  rw [e1, ← map_keys_lookup ([] : List (String × PCell)) (groupBy2 mc effYop rows)
    (alFold_keys_nodup _ _ _ _)]
  conv_rhs => rw [List.map_map, List.map_map]
  rw [List.map_map]
  rfl

theorem instBlock_head (req : ReqData) (mc : List String) (inst : String) (rows : List Row) :
    (instBlock req mc inst rows).head?
      = some (PivotRow.mk inst 0 (instTotalsPC req mc rows).total
          (instTotalsPC req mc rows).months) := by
  rw [instBlock, instTotalsPC]
  by_cases h3 : jsToLower req.report_type = "tr_j3"
  · rw [if_pos h3, if_pos h3]
    rfl
  · rw [if_neg h3, if_neg h3]
    by_cases h4 : jsToLower req.report_type = "tr_j4"
    · rw [if_pos h4, if_pos h4]
      rfl
    · rw [if_neg h4, if_neg h4]
      rfl

/-- C3 (amended): in the pivot output, for EVERY accumulated row set the Grand Total
row's total equals the sum of the level-0 institution totals (no hypothesis), and
each institution's level-0 total equals the sum of its level-1 children's totals
for tr_j3 and tr_j4 unconditionally, and for the remaining report types provided
every valid row's metric type is one of the four fixed metric-order names (a valid row with any other metric type is counted in
the institution and grand totals but emits no child row, breaking the parent/child
identity — see the counterexample). The access-type clause of the claim stands:
rows with non-fixed access types are excluded from parents and children alike. -/
theorem pivot_subtotal_invariant (data : List Row) (req : ReqData) :
    ((jsToLower req.report_type ≠ "tr_j3" → jsToLower req.report_type ≠ "tr_j4" →
        ∀ r ∈ validData data, r.Metric_Type ∈ metricOrder) →
      ∀ inst ∈ sortedInstitutions data,
      (instBlock req (getMonthColumns req.begin_date req.end_date) inst
          (instRowsOf data inst)).head?.map PivotRow.total
        = some ((((instBlock req (getMonthColumns req.begin_date req.end_date) inst
            (instRowsOf data inst)).filter (fun p => p.level == 1)).map PivotRow.total).sum))
    ∧ (pivotBody data req).getLast?.map PivotRow.total
        = some (((sortedInstitutions data).map (fun inst =>
            ((instBlock req (getMonthColumns req.begin_date req.end_date) inst
                (instRowsOf data inst)).head?.map PivotRow.total).getD 0)).sum) := by
  have hhead : ∀ inst, (instBlock req (getMonthColumns req.begin_date req.end_date) inst
      (instRowsOf data inst)).head?.map PivotRow.total
      = some ((instTotalsPC req (getMonthColumns req.begin_date req.end_date)
          (instRowsOf data inst)).total) := by
    intro inst
    rw [instBlock_head]
    rfl
  constructor
  · intro h inst _
    rw [hhead inst]
    rw [instBlock, instTotalsPC]
    by_cases h3 : jsToLower req.report_type = "tr_j3"
    · rw [if_pos h3, if_pos h3, blockJ3_parent_child]
    · rw [if_neg h3, if_neg h3]
      by_cases h4 : jsToLower req.report_type = "tr_j4"
      · rw [if_pos h4, if_pos h4, blockJ4_parent_child]
      · rw [if_neg h4, if_neg h4]
        rw [blockDefault_parent_child _ inst _
          (fun r hr => h h3 h4 r (instRowsOf_subset data inst r hr))]
  · rw [pivotBody, List.getLast?_concat]
    have h2 := foldl_addPC_total
      (fun inst => instTotalsPC req (getMonthColumns req.begin_date req.end_date)
        (instRowsOf data inst))
      (sortedInstitutions data) (emptyPCell (getMonthColumns req.begin_date req.end_date))
    have hgt : (PivotRow.mk "Grand Total" 0
        (((sortedInstitutions data).foldl (fun acc inst =>
          addPC acc (instTotalsPC req (getMonthColumns req.begin_date req.end_date)
            (instRowsOf data inst)))
          (emptyPCell (getMonthColumns req.begin_date req.end_date))).total)
        (((sortedInstitutions data).foldl (fun acc inst =>
          addPC acc (instTotalsPC req (getMonthColumns req.begin_date req.end_date)
            (instRowsOf data inst)))
          (emptyPCell (getMonthColumns req.begin_date req.end_date))).months)).total
        = ((sortedInstitutions data).map (fun inst =>
            (instTotalsPC req (getMonthColumns req.begin_date req.end_date)
              (instRowsOf data inst)).total)).sum := by
      simpa [emptyPCell] using h2
    rw [Option.map_some']
    rw [hgt]
    have hcong : (sortedInstitutions data).map (fun inst =>
        ((instBlock req (getMonthColumns req.begin_date req.end_date) inst
          (instRowsOf data inst)).head?.map PivotRow.total).getD 0)
        = (sortedInstitutions data).map (fun inst =>
            (instTotalsPC req (getMonthColumns req.begin_date req.end_date)
              (instRowsOf data inst)).total) := by
      refine List.map_congr_left ?_
      intro inst _
      rw [hhead inst]
      rfl
    rw [hcong]

/-- C3 request: a default-path (tr_j1) run over January 2024. -/
def c3Req : ReqData :=
  { report_type := "tr_j1", format := "", begin_date := ⟨2024, 0, 1⟩,
    end_date := ⟨2024, 0, 31⟩ }

/-- C3 row: a valid row whose metric type is none of the four fixed names. -/
def c3Row : Row :=
  { Institution_Name := "A", Institution_ID := "", Title := "T", Publisher := "",
    Publisher_ID := "", Platform := "", DOI := "", Proprietary_ID := "", Print_ISSN := "",
    Online_ISSN := "", URI := "", Metric_Type := "Weird_Metric",
    Reporting_Period_Total := 5, Access_Type := none, YOP := none,
    months := [("Jan-24", 5)] }

/-- C3 counterexample: a valid tr_j1 row with metric type outside the four fixed
names is counted in its institution's level-0 total (5) but emits no level-1 child
row, so the level-0 total does not equal the sum of the children's totals (0). -/
theorem pivot_nonfixed_metric_cex :
    getMonthColumns c3Req.begin_date c3Req.end_date = ["Jan-24"]
    ∧ sortedInstitutions [c3Row] = ["A"]
    ∧ instRowsOf [c3Row] "A" = [c3Row]
    ∧ (instBlock c3Req ["Jan-24"] "A" [c3Row]).head?.map PivotRow.total = some 5
    ∧ (((instBlock c3Req ["Jan-24"] "A" [c3Row]).filter
        (fun p => p.level == 1)).map PivotRow.total).sum = 0
    ∧ ((5 : Int) = 0 → False) := by
  refine ⟨by decide, by decide, by decide, by decide, by decide, by decide⟩

/-- C3 witness rows: two institutions, fixed metric types only. -/
def c3wRow1 : Row :=
  { Institution_Name := "B", Institution_ID := "", Title := "T", Publisher := "",
    Publisher_ID := "", Platform := "", DOI := "", Proprietary_ID := "", Print_ISSN := "",
    Online_ISSN := "", URI := "", Metric_Type := "Total_Item_Requests",
    Reporting_Period_Total := 2, Access_Type := none, YOP := none,
    months := [("Jan-24", 2)] }

/-- C3 witness second row. -/
def c3wRow2 : Row :=
  { Institution_Name := "A", Institution_ID := "", Title := "T", Publisher := "",
    Publisher_ID := "", Platform := "", DOI := "", Proprietary_ID := "", Print_ISSN := "",
    Online_ISSN := "", URI := "", Metric_Type := "Unique_Item_Requests",
    Reporting_Period_Total := 3, Access_Type := none, YOP := none,
    months := [("Jan-24", 3)] }

/-- Witness for `pivot_subtotal_invariant` at a two-institution tr_j1 row set,
discharging the fixed-metric hypothesis of the parent/child conjunct. -/
theorem pivot_subtotal_invariant_witness :
    (∀ inst ∈ sortedInstitutions [c3wRow1, c3wRow2],
        (instBlock c3Req (getMonthColumns c3Req.begin_date c3Req.end_date) inst
            (instRowsOf [c3wRow1, c3wRow2] inst)).head?.map PivotRow.total
          = some ((((instBlock c3Req (getMonthColumns c3Req.begin_date c3Req.end_date) inst
              (instRowsOf [c3wRow1, c3wRow2] inst)).filter
                (fun p => p.level == 1)).map PivotRow.total).sum))
    ∧ (pivotBody [c3wRow1, c3wRow2] c3Req).getLast?.map PivotRow.total
        = some (((sortedInstitutions [c3wRow1, c3wRow2]).map (fun inst =>
            ((instBlock c3Req (getMonthColumns c3Req.begin_date c3Req.end_date) inst
                (instRowsOf [c3wRow1, c3wRow2] inst)).head?.map
              PivotRow.total).getD 0)).sum) :=
  ⟨(pivot_subtotal_invariant [c3wRow1, c3wRow2] c3Req).1 (by decide),
   (pivot_subtotal_invariant [c3wRow1, c3wRow2] c3Req).2⟩

theorem bool_eq_of_iff {x y : Bool} (h : x = true ↔ y = true) : x = y := by
  cases x <;> cases y <;> simp_all

theorem lookup_isSome_iff {β : Type} : ∀ (g : List (String × β)) (k : String),
    (List.lookup k g).isSome = true ↔ k ∈ g.map Prod.fst := by
  intro g
  induction g with
  | nil => intro k; simp [List.lookup]
  | cons p rest ih =>
    intro k
    obtain ⟨k1, v1⟩ := p
    by_cases h : k = k1
    · subst h
      simp [List.lookup]
    · have hb : (k == k1) = false := by simp [h]
      simp [List.lookup, hb, ih, h]

theorem foldl_inner_eq (mc : List String) :
    ∀ (ts : List Row) (acc0 : Option (List (String × PCell))),
    ts.foldl (fun acc r => some (innerUpd mc (acc.getD []) r)) acc0
      = (if ts = [] then acc0
         else some (ts.foldl (fun g2 r => innerUpd mc g2 r) (acc0.getD []))) := by
  intro ts
  induction ts with
  | nil => intro acc0; simp
  | cons t rest ih =>
    intro acc0
    rw [List.foldl_cons, ih]
    by_cases h : rest = []
    · subst h; simp
    · rw [if_neg h, if_neg (by simp)]
      simp

theorem groupBy2_lookup (mc : List String) (key1 : Row → String) (rows : List Row)
    (a : String) :
    List.lookup a (groupBy2 mc key1 rows)
      = (if rows.filter (fun r => key1 r == a) = [] then none
         else some (alFold (fun r => r.Metric_Type) (fun r c => addRowPC mc c r)
           (fun _ => emptyPCell mc) (rows.filter (fun r => key1 r == a)) [])) := by
  rw [groupBy2, alFold_lookup, foldl_inner_eq]
  by_cases h : rows.filter (fun r => key1 r == a) = []
  · simp [h, List.lookup]
  · rw [if_neg h, if_neg h]
    rfl

theorem groupBy2_outer_mem (mc : List String) (key1 : Row → String) (rows : List Row)
    (a : String) :
    (List.lookup a (groupBy2 mc key1 rows)).isSome = true ↔ ∃ r ∈ rows, key1 r = a := by
  rw [lookup_isSome_iff, groupBy2, alFold_keys_mem]
  constructor
  · intro hx
    obtain ⟨r, hr, hre⟩ := List.mem_map.mp hx
    exact ⟨r, hr, hre⟩
  · rintro ⟨r, hr, hra⟩
    exact List.mem_map.mpr ⟨r, hr, hra⟩

theorem groupBy2_inner_mem (mc : List String) (key1 : Row → String) (rows : List Row)
    (a mt : String) :
    (List.lookup mt ((List.lookup a (groupBy2 mc key1 rows)).getD [])).isSome = true
      ↔ ∃ r ∈ rows, key1 r = a ∧ r.Metric_Type = mt := by
  rw [groupBy2_lookup]
  by_cases h : rows.filter (fun r => key1 r == a) = []
  · rw [if_pos h]
    simp only [Option.getD_none]
    constructor
    · intro hx
      simp [List.lookup] at hx
    · rintro ⟨r, hr, hra, _⟩
      have hmem : r ∈ rows.filter (fun r2 => key1 r2 == a) :=
        List.mem_filter.mpr ⟨hr, by simp [hra]⟩
      rw [h] at hmem
      simp at hmem
  · rw [if_neg h]
    simp only [Option.getD_some]
    rw [lookup_isSome_iff, alFold_keys_mem]
    constructor
    · intro hx
      obtain ⟨r, hr, hre⟩ := List.mem_map.mp hx
      have hf := List.mem_filter.mp hr
      exact ⟨r, hf.1, by simpa using hf.2, hre⟩
    · rintro ⟨r, hr, hra, hrm⟩
      exact List.mem_map.mpr ⟨r, List.mem_filter.mpr ⟨hr, by simp [hra]⟩, hrm⟩

theorem filter_level_two_flatten (f1 : String → PivotRow) (f2 : String → List PivotRow)
    (h1 : ∀ a, (f1 a).level = 1) (h2 : ∀ a p, p ∈ f2 a → p.level = 2) :
    ∀ (l : List String),
    ((l.map (fun a => f1 a :: f2 a)).flatten).filter (fun p => p.level == 2)
      = (l.map f2).flatten := by
  intro l
  induction l with
  | nil => rfl
  | cons a rest ih =>
    simp only [List.map_cons, List.flatten_cons, List.filter_append, ih]
    have hf : ((f1 a :: f2 a).filter (fun p => p.level == 2)) = f2 a := by
      rw [List.filter_cons_of_neg (by simp [h1 a])]
      exact List.filter_eq_self.mpr (fun p hp => by simp [h2 a p hp])
    rw [hf]

theorem map_flatten_comm {α β : Type} (f : α → β) :
    ∀ (l : List (List α)), (l.flatten).map f = (l.map (fun s => s.map f)).flatten := by
  intro l
  induction l with
  | nil => rfl
  | cons s rest ih => simp only [List.flatten_cons, List.map_append, List.map_cons, ih]

/-- C7 (amended): for the access-type-classified subtype (tr_j3), the pivot emits
each institution's level-1 access-type rows in the fixed priority order Controlled,
Free_To_Read, Open restricted to the access types some row carries, and within each
access type the level-2 metric rows in the fixed metric order, skipping any not
present; valid rows whose access-type tag is absent or empty fall into an "Unknown"
bucket (rows with an unrecognized non-empty tag into buckets of their own name),
and none of these extra buckets is EVER emitted — "Unknown" never appears as a
level-1 label, even when such rows are present (they are likewise excluded from the
institution subtotal, which sums the emitted access types only). -/
theorem trj3_emission (req : ReqData) (mc : List String) (inst : String)
    (rows : List Row) (h3 : jsToLower req.report_type = "tr_j3") :
    instBlock req mc inst rows = instBlockJ3 mc inst rows
    ∧ (((instBlockJ3 mc inst rows).filter (fun p => p.level == 1)).map PivotRow.label)
        = accessTypeOrder.filter (fun a => rows.any (fun r => effAccess r == a))
    ∧ (((instBlockJ3 mc inst rows).filter (fun p => p.level == 2)).map PivotRow.label)
        = ((accessTypeOrder.filter (fun a => rows.any (fun r => effAccess r == a))).map
            (fun a => metricOrder.filter
              (fun mt => rows.any (fun r => effAccess r == a && r.Metric_Type == mt)))).flatten
    ∧ "Unknown" ∉ (((instBlockJ3 mc inst rows).filter (fun p => p.level == 1)).map
        PivotRow.label) := by
  have hpred : ∀ a, (List.lookup a (groupBy2 mc effAccess rows)).isSome
      = rows.any (fun r => effAccess r == a) := by
    intro a
    apply bool_eq_of_iff
    rw [groupBy2_outer_mem mc effAccess rows a, List.any_eq_true]
    constructor
    · rintro ⟨r, hr, hra⟩
      exact ⟨r, hr, by simp [hra]⟩
    · rintro ⟨r, hr, hra⟩
      exact ⟨r, hr, by simpa using hra⟩
  have hfilter : accessTypeOrder.filter
        (fun a => (List.lookup a (groupBy2 mc effAccess rows)).isSome)
      = accessTypeOrder.filter (fun a => rows.any (fun r => effAccess r == a)) :=
    List.filter_congr (fun a _ => hpred a)
  have hlv1 : (((instBlockJ3 mc inst rows).filter (fun p => p.level == 1)).map
      PivotRow.label)
      = accessTypeOrder.filter (fun a => rows.any (fun r => effAccess r == a)) := by
    rw [instBlockJ3]
    rw [List.filter_cons_of_neg (by simp)]
    rw [filter_level_one_flatten
      (fun a => PivotRow.mk a 1
        (subTotals mc ((List.lookup a (groupBy2 mc effAccess rows)).getD [])).total
        (subTotals mc ((List.lookup a (groupBy2 mc effAccess rows)).getD [])).months)
      (fun a => metricRows ((List.lookup a (groupBy2 mc effAccess rows)).getD []) 2)
      (fun a => rfl) (fun a p hp => metricRows_level _ _ p hp)]
    rw [List.map_map, ← hfilter]
    have hid : ((accessTypeOrder.filter
        (fun a => (List.lookup a (groupBy2 mc effAccess rows)).isSome)).map
          (PivotRow.label ∘ fun a => PivotRow.mk a 1
            (subTotals mc ((List.lookup a (groupBy2 mc effAccess rows)).getD [])).total
            (subTotals mc ((List.lookup a (groupBy2 mc effAccess rows)).getD [])).months))
        = (accessTypeOrder.filter
            (fun a => (List.lookup a (groupBy2 mc effAccess rows)).isSome)).map
          (fun a => a) := List.map_congr_left (fun a _ => rfl)
    rw [hid, List.map_id']
  refine ⟨by rw [instBlock, if_pos h3], hlv1, ?_, ?_⟩
  · rw [instBlockJ3]
    rw [List.filter_cons_of_neg (by simp)]
    rw [filter_level_two_flatten
      (fun a => PivotRow.mk a 1
        (subTotals mc ((List.lookup a (groupBy2 mc effAccess rows)).getD [])).total
        (subTotals mc ((List.lookup a (groupBy2 mc effAccess rows)).getD [])).months)
      (fun a => metricRows ((List.lookup a (groupBy2 mc effAccess rows)).getD []) 2)
      (fun a => rfl) (fun a p hp => metricRows_level _ _ p hp)]
    rw [map_flatten_comm, List.map_map, ← hfilter]
    congr 1
    refine List.map_congr_left ?_
    intro a _
    have hml := metricRows_labels ((List.lookup a (groupBy2 mc effAccess rows)).getD []) 2
    have hcomp : (fun s => List.map PivotRow.label s) ∘
        (fun a2 => metricRows ((List.lookup a2 (groupBy2 mc effAccess rows)).getD []) 2) = fun a2 =>
          (metricRows ((List.lookup a2 (groupBy2 mc effAccess rows)).getD []) 2).map
            PivotRow.label := rfl
    rw [show ((fun s => List.map PivotRow.label s) ∘
        (fun a2 => metricRows ((List.lookup a2 (groupBy2 mc effAccess rows)).getD []) 2)) a
        = (metricRows ((List.lookup a (groupBy2 mc effAccess rows)).getD []) 2).map
            PivotRow.label from rfl]
    rw [hml]
    refine List.filter_congr ?_
    intro mt _
    apply bool_eq_of_iff
    rw [groupBy2_inner_mem mc effAccess rows a mt, List.any_eq_true]
    constructor
    · rintro ⟨r, hr, hra, hrm⟩
      exact ⟨r, hr, by simp [hra, hrm]⟩
    · rintro ⟨r, hr, hb⟩
      have hb2 : effAccess r = a ∧ r.Metric_Type = mt := by simpa using hb
      exact ⟨r, hr, hb2.1, hb2.2⟩
  · rw [hlv1]
    intro hmem
    have := (List.mem_filter.mp hmem).1
    simp [accessTypeOrder] at this

/-- C7 request: tr_j3 over January 2024. -/
def c7Req : ReqData :=
  { report_type := "tr_j3", format := "", begin_date := ⟨2024, 0, 1⟩,
    end_date := ⟨2024, 0, 31⟩ }

/-- C7 row with an empty access-type tag: falls into the "Unknown" bucket. -/
def c7RowU : Row :=
  { Institution_Name := "A", Institution_ID := "", Title := "T", Publisher := "",
    Publisher_ID := "", Platform := "", DOI := "", Proprietary_ID := "", Print_ISSN := "",
    Online_ISSN := "", URI := "", Metric_Type := "Total_Item_Requests",
    Reporting_Period_Total := 5, Access_Type := some "", YOP := none,
    months := [("Jan-24", 5)] }

/-- C7 row with an unrecognized access-type tag. -/
def c7RowW : Row :=
  { Institution_Name := "A", Institution_ID := "", Title := "T", Publisher := "",
    Publisher_ID := "", Platform := "", DOI := "", Proprietary_ID := "", Print_ISSN := "",
    Online_ISSN := "", URI := "", Metric_Type := "Total_Item_Requests",
    Reporting_Period_Total := 7, Access_Type := some "Weird", YOP := none,
    months := [("Jan-24", 7)] }

/-- C7 counterexample: two valid tr_j3 rows whose access tags are empty (Unknown
bucket) and unrecognized; the claim says the Unknown bucket "is emitted when such
rows are present", but the pivot body contains only the institution header and the
Grand Total row — no "Unknown" row — and both rows' totals (5 and 7) are excluded
from every subtotal. -/
theorem trj3_unknown_not_emitted_cex :
    effAccess c7RowU = "Unknown"
    ∧ validData [c7RowU, c7RowW] = [c7RowU, c7RowW]
    ∧ (pivotBody [c7RowU, c7RowW] c7Req).map PivotRow.label = ["A", "Grand Total"]
    ∧ "Unknown" ∉ (pivotBody [c7RowU, c7RowW] c7Req).map PivotRow.label
    ∧ (pivotBody [c7RowU, c7RowW] c7Req).map PivotRow.total = [0, 0] := by
  refine ⟨by decide, by decide, by decide, by decide, by decide⟩

/-- Witness for `trj3_emission` at the C7 rows. -/
theorem trj3_emission_witness :
    jsToLower c7Req.report_type = "tr_j3"
    ∧ (instBlock c7Req ["Jan-24"] "A" [c7RowU, c7RowW]
          = instBlockJ3 ["Jan-24"] "A" [c7RowU, c7RowW]
      ∧ (((instBlockJ3 ["Jan-24"] "A" [c7RowU, c7RowW]).filter
            (fun p => p.level == 1)).map PivotRow.label)
          = accessTypeOrder.filter
              (fun a => [c7RowU, c7RowW].any (fun r => effAccess r == a))
      ∧ (((instBlockJ3 ["Jan-24"] "A" [c7RowU, c7RowW]).filter
            (fun p => p.level == 2)).map PivotRow.label)
          = ((accessTypeOrder.filter
                (fun a => [c7RowU, c7RowW].any (fun r => effAccess r == a))).map
              (fun a => metricOrder.filter
                (fun mt => [c7RowU, c7RowW].any
                  (fun r => effAccess r == a && r.Metric_Type == mt)))).flatten
      ∧ "Unknown" ∉ (((instBlockJ3 ["Jan-24"] "A" [c7RowU, c7RowW]).filter
            (fun p => p.level == 1)).map PivotRow.label)) :=
  ⟨by decide, trj3_emission c7Req ["Jan-24"] "A" [c7RowU, c7RowW] (by decide)⟩

/-- C1 request: a default-path (tr_j1) run over January 2024. -/
def c1Req : ReqData :=
  { report_type := "tr_j1", format := "", begin_date := ⟨2024, 0, 1⟩,
    end_date := ⟨2024, 0, 31⟩ }

/-- C1 (code bug): the pivot's partition tests the TITLE against "ERROR"
(line 571/572), but `createErrorEntry` writes "ERROR" into the institution-name
field and `Failed: …` into the title (lines 510-512), so a synthetic fetch-failure
row (metric type "ERROR") passes the valid filter, is grouped in the pivot body
under the institution name "ERROR" (level-0 row), and the errors section is not
produced — contradicting the claim (and the code's own comment "Filter out error
rows for pivot formatting") that classification is by metric type "ERROR"/"No
Data". -/
theorem pivot_error_row_misclassified :
    (createErrorEntry "API returned 500" c1Req ⟨"cust9"⟩).Metric_Type = "ERROR"
    ∧ (createErrorEntry "API returned 500" c1Req ⟨"cust9"⟩).Title
        = "Failed: API returned 500"
    ∧ validData [createErrorEntry "API returned 500" c1Req ⟨"cust9"⟩]
        = [createErrorEntry "API returned 500" c1Req ⟨"cust9"⟩]
    ∧ errorData [createErrorEntry "API returned 500" c1Req ⟨"cust9"⟩] = []
    ∧ pivotBody [createErrorEntry "API returned 500" c1Req ⟨"cust9"⟩] c1Req
        = [PivotRow.mk "ERROR" 0 0 [0], PivotRow.mk "Grand Total" 0 0 [0]]
    ∧ errorLines (errorData [createErrorEntry "API returned 500" c1Req ⟨"cust9"⟩]) = [] := by
  refine ⟨by decide, by decide, by decide, by decide, by decide, by decide⟩

/-- C10 (amended): the last row of the pivot body is always a level-0 row labeled
"Grand Total"; when the input contains no rows the pivot classifies as valid, the
output is the header line and a "Grand Total" line with total 0 and every month
value 0, followed — when rows classified as error/no-data are present — by the
blank line, the "--- Errors ---" marker and one line per such row (so the output
is NOT just header plus Grand Total in that case, see the counterexample); with no
input rows at all the output is exactly those two lines — unlike the flat CSV
renderer, which returns the empty string for zero rows. -/
theorem pivot_gt_and_empty (data : List Row) (req : ReqData) :
    (pivotBody data req).getLast?.map (fun p => (p.label, p.level))
      = some ("Grand Total", 0)
    ∧ (validData data = [] →
        formatAsPivot data req
          = String.intercalate "\n"
              ((pivotHeaderLine (getMonthColumns req.begin_date req.end_date)
                :: [pivotLine (PivotRow.mk "Grand Total" 0 0
                    ((getMonthColumns req.begin_date req.end_date).map (fun _ => 0)))])
                ++ errorLines (errorData data)))
    ∧ convertToCSV [] req = "" := by
  refine ⟨?_, ?_, ?_⟩
  · rw [pivotBody, List.getLast?_concat]
    rfl
  · intro hv
    have hby : byInstitution data = [] := by
      rw [byInstitution, hv]
      rfl
    have hsort : sortedInstitutions data = [] := by
      rw [sortedInstitutions, hby]
      rfl
    rw [formatAsPivot, pivotBody, hsort]
    rfl
  · rfl

/-- C10 request: tr_j1 over January 2024. -/
def c10Req : ReqData :=
  { report_type := "tr_j1", format := "", begin_date := ⟨2024, 0, 1⟩,
    end_date := ⟨2024, 0, 31⟩ }

/-- C10 data: the single no-data row of an empty payload. -/
def c10Data : List Row := (processApiResponse ⟨none, []⟩ c10Req ⟨"c10"⟩).1

/-- C10 counterexample: with only a no-data row as input, the output is NOT just
the header row plus the zero "Grand Total" row — the blank separator, the
"--- Errors ---" marker and the no-data line are appended after them. -/
theorem pivot_errors_section_cex :
    formatAsPivot c10Data c10Req
      = "\"\",\"Reporting_Period_Total\",\"Jan-24\"\n\"Grand Total\",0,0\n\n\"--- Errors ---\"\n\"\",\"No usage data for this period\""
    ∧ formatAsPivot c10Data c10Req
      ≠ "\"\",\"Reporting_Period_Total\",\"Jan-24\"\n\"Grand Total\",0,0" := by
  refine ⟨by decide, by decide⟩

/-- Witness for `pivot_gt_and_empty` at the C10 no-data input. -/
theorem pivot_gt_and_empty_witness :
    validData c10Data = []
    ∧ formatAsPivot c10Data c10Req
        = String.intercalate "\n"
            ((pivotHeaderLine (getMonthColumns c10Req.begin_date c10Req.end_date)
              :: [pivotLine (PivotRow.mk "Grand Total" 0 0
                  ((getMonthColumns c10Req.begin_date c10Req.end_date).map (fun _ => 0)))])
              ++ errorLines (errorData c10Data)) :=
  ⟨by decide, (pivot_gt_and_empty c10Data c10Req).2.1 (by decide)⟩

end Sushi
